import Mathlib

/-!
Verification of the single-elimination tournament bracket engine:
score validation, winner derivation, bracket generation, match reporting,
and tournament progression, shallowly embedded from the TypeScript services
(`matchService.ts`, `tournamentService.ts`) with JavaScript numbers carrying
round scores modelled as `Int` (integer inputs make `Number.isInteger` hold),
`null` as `Option`, `Date` timestamps as `Nat`, thrown errors as explicit
error values, and in-place mutation as explicit state passing.
-/

namespace ValorantBot

/-- Side of a match, the result of `getWinner` ('home' / 'away'). -/
inductive WinnerSide
  | home
  | away
deriving DecidableEq, Repr

/-- Match lifecycle status from `types/match.ts`. -/
inductive MatchStatus
  | pending
  | ready
  | in_progress
  | completed
deriving DecidableEq, Repr

/-- Tournament lifecycle status from `types/tournament.ts`. -/
inductive TournamentStatus
  | draft
  | registration
  | active
  | completed
deriving DecidableEq, Repr

/-- Team record from `types/team.ts`; `registeredAt` timestamp as `Nat`. -/
structure Team where
  id : String
  name : String
  tournamentId : String
  captainId : String
  captainName : String
  members : List String
  registeredAt : Nat
deriving DecidableEq, Repr

/-- Match record from `types/match.ts`; nullable fields as `Option`. -/
structure Match where
  id : String
  tournamentId : String
  stage : Nat
  stagePosition : Nat
  homeTeamId : Option String
  awayTeamId : Option String
  winnerId : Option String
  homeRounds : Option Int
  awayRounds : Option Int
  status : MatchStatus
  nextMatchId : Option String
  createdAt : Nat
  updatedAt : Nat
  completedAt : Option Nat
deriving DecidableEq, Repr

/-- Tournament record from `types/tournament.ts` (the `format` field is the
constant string 'single-elimination' and is omitted). -/
structure Tournament where
  id : String
  name : String
  teamCount : Nat
  status : TournamentStatus
  guildId : String
  currentStage : Nat
  totalStages : Nat
  createdAt : Nat
  updatedAt : Nat
  completedAt : Option Nat
  teams : List Team
  «matches» : List Match
deriving DecidableEq, Repr

/-- Projection for the `matches` field (the bare name collides with a
built-in keyword). -/
def Tournament.matchList (t : Tournament) : List Match := t.«matches»

/-- JavaScript truthiness test for a nullable string: `null` and the empty
string are falsy. Used wherever the source tests a `string | null` field
directly (`!match.homeTeamId`, `if (match.nextMatchId)`, ...). -/
def strFalsy : Option String → Bool
  | none => true
  | some s => s == ""

/-- `MatchService.isValidValorantScore` (matchService.ts:26-51). The
`Number.isInteger` guards hold identically on the `Int` embedding. -/
def isValidValorantScore (rounds1 rounds2 : Int) : Bool :=
  if rounds1 < 0 ∨ rounds2 < 0 then false
  else if rounds1 = rounds2 then false
  else
    let higher := max rounds1 rounds2
    let lower := min rounds1 rounds2
    if higher = 13 ∧ lower ≤ 11 then true
    else if 12 ≤ lower ∧ 2 ≤ higher - lower then true
    else false

/-- `MatchService.getWinner` (matchService.ts:56-62). -/
def getWinner (homeRounds awayRounds : Int) : Option WinnerSide :=
  if ¬ isValidValorantScore homeRounds awayRounds then none
  else if homeRounds > awayRounds then some .home else some .away

/-- The diagnosis attached to an invalid score, following the branch cascade
in `reportMatchResult` (matchService.ts:74-89). -/
inductive ScoreErrorKind
  | draw
  | needsOvertime
  | notFinished
  | overtimeGapNeeded
  | invalid
deriving DecidableEq, Repr

/-- The branch cascade choosing the invalid-score message
(matchService.ts:75-88). -/
def invalidScoreKind (homeRounds awayRounds : Int) : ScoreErrorKind :=
  let higher := max homeRounds awayRounds
  let lower := min homeRounds awayRounds
  if homeRounds = awayRounds then .draw
  else if higher = 13 ∧ lower = 12 then .needsOvertime
  else if higher < 13 then .notFinished
  else if 12 ≤ lower ∧ higher - lower = 1 then .overtimeGapNeeded
  else .invalid

/-- A concrete team used by the concrete-instance theorems. -/
def wTeamA : Team :=
  { id := "A", name := "Alpha", tournamentId := "t1", captainId := "c1",
    captainName := "Cap1", members := [], registeredAt := 0 }

/-- A concrete team used by the concrete-instance theorems. -/
def wTeamB : Team :=
  { id := "B", name := "Bravo", tournamentId := "t1", captainId := "c2",
    captainName := "Cap2", members := [], registeredAt := 0 }

/-- A concrete team used by the concrete-instance theorems. -/
def wTeamC : Team :=
  { id := "C", name := "Charlie", tournamentId := "t1", captainId := "c3",
    captainName := "Cap3", members := [], registeredAt := 0 }

/-- A concrete team used by the concrete-instance theorems. -/
def wTeamD : Team :=
  { id := "D", name := "Delta", tournamentId := "t1", captainId := "c4",
    captainName := "Cap4", members := [], registeredAt := 0 }

/-- Fresh match id supply (`generateMatchId`, tournamentService.ts:52-54,
timestamp-plus-random in the source); modelled as distinct strings indexed by
the order of generation. -/
def generateMatchId (k : Nat) : String := "match_" ++ toString k

/-- A match as built during the generation pass of `generateBracket`: the
`nextMatchId` field temporarily holds the `(round, position)` key of the
linked match (the string key `round-position` in the source) until the
second pass rewrites it to a real id. -/
structure PreMatch where
  base : Match
  nextKey : Option (Nat × Nat)
deriving DecidableEq, Repr

/-- One match synthesized by the generation loop of `generateBracket`
(tournamentService.ts:224-260): round-1 matches get the shuffled teams at
indices `(position-1)*2` and `(position-1)*2+1` and status 'ready'; matches
of rounds below `totalRounds` carry the key of the round `r+1`, position
`ceil(p/2)` match as their pending forward link. -/
def mkBracketPre (tid : String) (shuffled : List Team) (totalRounds round matchNumber : Nat)
    (matchId : String) (now : Nat) : PreMatch where
  base :=
    { id := matchId
      tournamentId := tid
      stage := round
      stagePosition := matchNumber
      homeTeamId := if round = 1 then (shuffled.get? ((matchNumber - 1) * 2)).map Team.id else none
      awayTeamId := if round = 1 then (shuffled.get? ((matchNumber - 1) * 2 + 1)).map Team.id else none
      winnerId := none
      homeRounds := none
      awayRounds := none
      status := if round = 1 then .ready else .pending
      nextMatchId := none
      createdAt := now
      updatedAt := now
      completedAt := none }
  nextKey := if round < totalRounds then some (round + 1, (matchNumber + 1) / 2) else none

/-- The matches of one round, in position order (`matchNumber` from 1 to
`2^(totalRounds - round)`), ids continuing from `startIdx`. -/
def bracketRound (tid : String) (shuffled : List Team) (totalRounds round startIdx now : Nat) :
    List PreMatch :=
  (List.range (2 ^ (totalRounds - round))).map fun j =>
    mkBracketPre tid shuffled totalRounds round (j + 1) (generateMatchId (startIdx + j)) now

/-- The generation loop over rounds `round, round+1, ...` (`remaining` rounds
left), threading the id counter. Called with `remaining = round totalRounds`,
`round = 1`, `startIdx = 0` it produces all rounds in order. -/
def bracketRounds (tid : String) (shuffled : List Team) (totalRounds now : Nat) :
    Nat → Nat → Nat → List PreMatch
  | 0, _, _ => []
  | remaining + 1, round, startIdx =>
      bracketRound tid shuffled totalRounds round startIdx now ++
        bracketRounds tid shuffled totalRounds now remaining (round + 1)
          (startIdx + 2 ^ (totalRounds - round))

/-- The `matchIdMap` built during generation: `(round, position)` key to the
generated match id (tournamentService.ts:259). -/
def bracketIdMap (pres : List PreMatch) : List ((Nat × Nat) × String) :=
  pres.map fun p => ((p.base.stage, p.base.stagePosition), p.base.id)

/-- Second pass of `generateBracket` (tournamentService.ts:265-271): rewrite
the temporary key held in the forward link to the real id of the linked
match, or null it out when the key resolves to nothing. -/
def resolveLink (idMap : List ((Nat × Nat) × String)) (p : PreMatch) : Match :=
  match p.nextKey with
  | none => p.base
  | some k =>
    match idMap.lookup k with
    | some realId => { p.base with nextMatchId := some realId }
    | none => { p.base with nextMatchId := none }

/-- `TournamentService.generateBracket` (tournamentService.ts:206-274). The
uniform shuffle of the team list (`sort(() => Math.random() - 0.5)`) is
modelled by the explicit `shuffled` argument; the caller passes a
permutation of `teams`. -/
def generateBracket (teams shuffled : List Team) (now : Nat) : List Match :=
  let teamCount := teams.length
  let totalRounds := Nat.log2 teamCount
  let tid := ((teams.head?).map Team.tournamentId).getD ""
  let pres := bracketRounds tid shuffled totalRounds now totalRounds 1 0
  pres.map (resolveLink (bracketIdMap pres))

/-- The record returned by `checkTournamentProgress` (`TournamentStatus`
interface in matchService.ts:12-18; renamed here because the name collides
with the status enum). -/
structure TournamentProgress where
  isCompleted : Bool
  currentRound : Nat
  totalRounds : Nat
  champion : Option String
  runnerUp : Option String
deriving DecidableEq, Repr

/-- The mutable loop state of `checkTournamentProgress`: the accumulated
`currentStage` counter, completion flag, champion/runner-up names, and the
(possibly mutated) tournament. -/
structure LoopState where
  currentStage : Nat
  isCompleted : Bool
  champion : Option String
  runnerUp : Option String
  t : Tournament

/-- Tournament completion mutation of `checkTournamentProgress`
(matchService.ts:200-202). -/
def completeTournament (t : Tournament) (now : Nat) : Tournament :=
  { t with status := .completed, completedAt := some now, updatedAt := now }

/-- The champion / runner-up computation on the completed final match
(matchService.ts:190-197); `if (finalMatch.winnerId)` is a JS truthiness
test, so a null or empty winner id leaves both names unset. -/
def finalOutcome (t : Tournament) (finalMatch : Match) : Option String × Option String :=
  match finalMatch.winnerId with
  | none => (none, none)
  | some wid =>
    if wid == "" then (none, none)
    else
      ((t.teams.find? (fun tm => tm.id == wid)).map Team.name,
       (t.teams.find? (fun tm => (some tm.id : Option String) ==
          (if finalMatch.homeTeamId == some wid then finalMatch.awayTeamId
           else finalMatch.homeTeamId))).map Team.name)

/-- The per-stage loop of `checkTournamentProgress` (matchService.ts:175-205):
stop at the first stage with an uncompleted match; on a fully completed final
stage read the champion from the first match of that stage (`stageMatches[0]`,
never absent since stages are drawn from the matches themselves) and complete
the tournament. -/
def progressLoop (now : Nat) : Tournament → List Nat → Nat → LoopState
  | t, [], cur => ⟨cur, false, none, none, t⟩
  | t, stage :: rest, cur =>
    let stageMatches := t.matchList.filter (fun m => m.stage == stage)
    let completedMatches := stageMatches.filter (fun m => m.status == MatchStatus.completed)
    if completedMatches.length < stageMatches.length then ⟨cur, false, none, none, t⟩
    else if stage == t.totalStages then
      match stageMatches.head? with
      | some finalMatch =>
        let co := finalOutcome t finalMatch
        ⟨stage + 1, true, co.1, co.2, completeTournament t now⟩
      | none => ⟨stage + 1, true, none, none, completeTournament t now⟩
    else progressLoop now t rest (stage + 1)

/-- `MatchService.checkTournamentProgress` (matchService.ts:165-216): stages
are the deduplicated, ascending-sorted stage numbers of the matches; the
loop runs with `currentStage` starting at 1; afterwards the tournament's
`currentStage` is clamped to `totalStages`. -/
def checkTournamentProgress (t : Tournament) (now : Nat) : TournamentProgress × Tournament :=
  let stages := ((t.matchList.map (fun m => m.stage)).dedup).insertionSort (· ≤ ·)
  let st := progressLoop now t stages 1
  let t2 := { st.t with currentStage := min st.currentStage st.t.totalStages }
  ({ isCompleted := st.isCompleted, currentRound := t2.currentStage,
     totalRounds := t.totalStages, champion := st.champion, runnerUp := st.runnerUp }, t2)

/-- Whether every match of stage `s` is completed (used by the
specification-side `firstIncompleteStage`). -/
def stageFullyCompleted (t : Tournament) (s : Nat) : Bool :=
  (t.matchList.filter (fun m => m.stage == s)).all (fun m => m.status == MatchStatus.completed)

/-- Specification-side definition, following the spec wording "the
tournament's currentStage field is set to min(firstIncompleteStage,
totalStages)": the first stage in `1..totalStages` with a not-yet-completed
match, or `totalStages + 1` when every stage is fully completed. Compared
against the code's `checkTournamentProgress` in the C2 theorem. -/
def firstIncompleteStage (t : Tournament) : Nat :=
  match (List.range t.totalStages).find? (fun i => ! stageFullyCompleted t (i + 1)) with
  | some i => i + 1
  | none => t.totalStages + 1

/-- Concrete completed semifinal 1 (A beats B 13-7) used by concrete-instance
theorems. -/
def wMatch1 : Match :=
  { id := "m1", tournamentId := "t1", stage := 1, stagePosition := 1,
    homeTeamId := some "A", awayTeamId := some "B", winnerId := some "A",
    homeRounds := some 13, awayRounds := some 7, status := .completed,
    nextMatchId := some "m3", createdAt := 0, updatedAt := 1, completedAt := some 1 }

/-- Concrete completed semifinal 2 (D beats C 14-12) used by concrete-instance
theorems. -/
def wMatch2 : Match :=
  { id := "m2", tournamentId := "t1", stage := 1, stagePosition := 2,
    homeTeamId := some "C", awayTeamId := some "D", winnerId := some "D",
    homeRounds := some 12, awayRounds := some 14, status := .completed,
    nextMatchId := some "m3", createdAt := 0, updatedAt := 2, completedAt := some 2 }

/-- Concrete completed final (A beats D 13-9) used by concrete-instance
theorems. -/
def wMatch3 : Match :=
  { id := "m3", tournamentId := "t1", stage := 2, stagePosition := 1,
    homeTeamId := some "A", awayTeamId := some "D", winnerId := some "A",
    homeRounds := some 13, awayRounds := some 9, status := .completed,
    nextMatchId := none, createdAt := 0, updatedAt := 3, completedAt := some 3 }

/-- A concrete fully played 4-team tournament used by concrete-instance
theorems. -/
def wTournament : Tournament :=
  { id := "t1", name := "Cup", teamCount := 4, status := .active, guildId := "g1",
    currentStage := 1, totalStages := 2, createdAt := 0, updatedAt := 0,
    completedAt := none, teams := [wTeamA, wTeamB, wTeamC, wTeamD],
    «matches» := [wMatch1, wMatch2, wMatch3] }

/-- The error cases thrown by `reportMatchResult` (matchService.ts:74-111),
in source order. -/
inductive ReportError
  | invalidScore (kind : ScoreErrorKind)
  | tournamentNotFound
  | tournamentNotActive
  | matchNotFound
  | alreadyCompleted
  | teamsNotAssigned
deriving DecidableEq, Repr

/-- The `MatchResult` record returned by `reportMatchResult`
(matchService.ts:5-10). -/
structure MatchReport where
  match_ : Match
  winner : String
  nextMatches : List Match
  tournamentCompleted : Bool
deriving DecidableEq, Repr

/-- `TournamentService.get` (tournamentService.ts:89-91): `Map.get` on the
registry keyed by tournament id, modelled as first-match lookup. -/
def getTournament (ts : List Tournament) (tid : String) : Option Tournament :=
  ts.find? (fun t => t.id == tid)

/-- In-place mutation of the first tournament with the given id. -/
def replaceFirstTournament : List Tournament → String → Tournament → List Tournament
  | [], _, _ => []
  | t :: rest, tid, t' =>
    if t.id == tid then t' :: rest else t :: replaceFirstTournament rest tid t'

/-- `Map.set` on the registry: replace the entry with the same id, or append
a new entry. -/
def setTournament (ts : List Tournament) (t : Tournament) : List Tournament :=
  if ts.any (fun u => u.id == t.id) then replaceFirstTournament ts t.id t else ts ++ [t]

/-- In-place mutation of the first match with the given id, modelling the
source's mutation of the object found by `matches.find(...)`. -/
def replaceFirstMatch : List Match → String → Match → List Match
  | [], _, _ => []
  | m :: rest, mid, m' =>
    if m.id == mid then m' :: rest else m :: replaceFirstMatch rest mid m'

/-- The completion mutation of the reported match
(matchService.ts:119-124). -/
def completedMatch (m : Match) (homeRounds awayRounds : Int) (winnerId : String)
    (now : Nat) : Match :=
  { m with
    homeRounds := some homeRounds, awayRounds := some awayRounds,
    winnerId := some winnerId, status := MatchStatus.completed,
    completedAt := some now, updatedAt := now }

/-- The slot fill of the forward-linked match (matchService.ts:132-136):
the home slot is filled when falsy, else the away slot when falsy. -/
def fillSlots (nm : Match) (winnerId : String) : Match :=
  if strFalsy nm.homeTeamId then { nm with homeTeamId := some winnerId }
  else if strFalsy nm.awayTeamId then { nm with awayTeamId := some winnerId }
  else nm

/-- The ready transition of the forward-linked match
(matchService.ts:139-141). -/
def advanceIfReady (nm1 : Match) : Match :=
  if ¬ strFalsy nm1.homeTeamId ∧ ¬ strFalsy nm1.awayTeamId ∧
      nm1.status = MatchStatus.pending
  then { nm1 with status := MatchStatus.ready } else nm1

/-- Winner propagation into the forward-linked match
(matchService.ts:127-146): resolve the link (JS truthiness, so a null or
empty link is skipped), fill a slot, advance to ready, stamp the update
time; returns the updated match list and the `nextMatches` result list. -/
def propagateWinner (matches1 : List Match) (link : Option String) (winnerId : String)
    (now : Nat) : List Match × List Match :=
  if ¬ strFalsy link then
    match matches1.find? (fun mm => mm.id == link.getD "") with
    | some nm =>
      let nm3 := { advanceIfReady (fillSlots nm winnerId) with updatedAt := now }
      (replaceFirstMatch matches1 (link.getD "") nm3, [nm3])
    | none => (matches1, [])
  else (matches1, [])

/-- The winner id of a reported match (matchService.ts:114-115): the home
team id when `getWinner` says home, otherwise the away team id. -/
def reportWinnerId (m : Match) (homeRounds awayRounds : Int) : String :=
  if getWinner homeRounds awayRounds = some WinnerSide.home then m.homeTeamId.getD ""
  else m.awayTeamId.getD ""

/-- The success path of `reportMatchResult` after all precondition checks
(matchService.ts:113-159): complete the match, propagate the winner into the
forward-linked match, rerun `checkTournamentProgress`, and store the
tournament (`updateTournament`, tournamentService.ts:327-333). -/
def applyMatchResult (ts : List Tournament) (tournament : Tournament) (m : Match)
    (matchId : String) (homeRounds awayRounds : Int) (now : Nat) :
    Except ReportError MatchReport × List Tournament :=
  let winnerId := reportWinnerId m homeRounds awayRounds
  let winnerName :=
    ((tournament.teams.find? (fun tm => tm.id == winnerId)).map Team.name).getD ""
  let m' := completedMatch m homeRounds awayRounds winnerId now
  let matches1 := replaceFirstMatch tournament.matchList matchId m'
  let step2 := propagateWinner matches1 m'.nextMatchId winnerId now
  let t1 := { tournament with «matches» := step2.1 }
  let pr := checkTournamentProgress t1 now
  let t3 := { pr.2 with updatedAt := now }
  (Except.ok {
    match_ := m', winner := winnerName, nextMatches := step2.2,
    tournamentCompleted := pr.1.isCompleted }, setTournament ts t3)

/-- `MatchService.reportMatchResult` (matchService.ts:67-160): validate the
score first, then resolve tournament and match, check preconditions in source
order, and on success run `applyMatchResult`. Errors leave the registry
unchanged (every throw happens before any mutation). -/
def reportMatchResult (ts : List Tournament) (tournamentId matchId : String)
    (homeRounds awayRounds : Int) (now : Nat) :
    Except ReportError MatchReport × List Tournament :=
  if ¬ isValidValorantScore homeRounds awayRounds then
    (Except.error (ReportError.invalidScore (invalidScoreKind homeRounds awayRounds)), ts)
  else
    match getTournament ts tournamentId with
    | none => (Except.error ReportError.tournamentNotFound, ts)
    | some tournament =>
      if tournament.status ≠ TournamentStatus.active then
        (Except.error ReportError.tournamentNotActive, ts)
      else
        match tournament.matchList.find? (fun m => m.id == matchId) with
        | none => (Except.error ReportError.matchNotFound, ts)
        | some m =>
          if m.status = MatchStatus.completed then
            (Except.error ReportError.alreadyCompleted, ts)
          else if strFalsy m.homeTeamId ∨ strFalsy m.awayTeamId then
            (Except.error ReportError.teamsNotAssigned, ts)
          else applyMatchResult ts tournament m matchId homeRounds awayRounds now

/-- Error cases thrown by the `TournamentService` registry operations
(tournamentService.ts), by cause. -/
inductive ServiceError
  | duplicateName
  | notFound
  | invalidStatus
  | capacityFull
  | teamNameTaken
  | notEnoughTeams
deriving DecidableEq, Repr

/-- `CreateTournamentOptions` from `types/tournament.ts`. -/
structure CreateTournamentOptions where
  name : String
  teamCount : Nat
  guildId : String
deriving DecidableEq, Repr

/-- `RegisterTeamOptions` from `types/team.ts`. -/
structure RegisterTeamOptions where
  tournamentId : String
  name : String
  captainId : String
  captainName : String
deriving DecidableEq, Repr

/-- `TournamentService.findByNameAndGuild` (tournamentService.ts:398-404). -/
def findByNameAndGuild (ts : List Tournament) (name guildId : String) : Option Tournament :=
  ts.find? (fun t => t.name == name && t.guildId == guildId)

/-- `TournamentService.create` (tournamentService.ts:56-87); the fresh id
(`t_` + timestamp in the source) is the `newId` argument. -/
def createTournament (ts : List Tournament) (o : CreateTournamentOptions)
    (newId : String) (now : Nat) : Except ServiceError Tournament × List Tournament :=
  match findByNameAndGuild ts o.name o.guildId with
  | some _ => (Except.error ServiceError.duplicateName, ts)
  | none =>
    let t : Tournament := {
      id := newId, name := o.name, teamCount := o.teamCount,
      status := TournamentStatus.draft, guildId := o.guildId, currentStage := 1,
      totalStages := Nat.log2 o.teamCount, createdAt := now, updatedAt := now,
      completedAt := none, teams := [], «matches» := [] }
    (Except.ok t, setTournament ts t)

/-- `TournamentService.startRegistration` (tournamentService.ts:102-120). -/
def startRegistration (ts : List Tournament) (tid : String) (now : Nat) :
    Except ServiceError Tournament × List Tournament :=
  match getTournament ts tid with
  | none => (Except.error ServiceError.notFound, ts)
  | some t =>
    if t.status ≠ TournamentStatus.draft then (Except.error ServiceError.invalidStatus, ts)
    else
      let t' := { t with status := TournamentStatus.registration, updatedAt := now }
      (Except.ok t', setTournament ts t')

/-- `TournamentService.getTeams` (tournamentService.ts:160-163). -/
def getTeams (ts : List Tournament) (tid : String) : List Team :=
  match getTournament ts tid with
  | some t => t.teams
  | none => []

/-- `TournamentService.isTeamNameTaken` (tournamentService.ts:165-168). -/
def isTeamNameTaken (ts : List Tournament) (tid teamName : String) : Bool :=
  (getTeams ts tid).any (fun team => team.name == teamName)

/-- `TournamentService.canRegisterTeam` (tournamentService.ts:170-174). -/
def canRegisterTeam (ts : List Tournament) (tid : String) : Bool :=
  match getTournament ts tid with
  | none => false
  | some t => t.teams.length < t.teamCount

/-- `TournamentService.registerTeam` (tournamentService.ts:122-158); the
fresh team id is the `newTeamId` argument. -/
def registerTeam (ts : List Tournament) (o : RegisterTeamOptions)
    (newTeamId : String) (now : Nat) : Except ServiceError Team × List Tournament :=
  match getTournament ts o.tournamentId with
  | none => (Except.error ServiceError.notFound, ts)
  | some t =>
    if t.status ≠ TournamentStatus.registration then
      (Except.error ServiceError.invalidStatus, ts)
    else if ¬ canRegisterTeam ts o.tournamentId then
      (Except.error ServiceError.capacityFull, ts)
    else if isTeamNameTaken ts o.tournamentId o.name then
      (Except.error ServiceError.teamNameTaken, ts)
    else
      let team : Team := {
        id := newTeamId, name := o.name,
        tournamentId := o.tournamentId, captainId := o.captainId,
        captainName := o.captainName, members := [], registeredAt := now }
      let t' := { t with teams := t.teams ++ [team], updatedAt := now }
      (Except.ok team, setTournament ts t')

/-- `TournamentService.startTournament` (tournamentService.ts:176-204); the
shuffle drawn inside `generateBracket` is the `shuffled` argument. -/
def startTournament (ts : List Tournament) (tid : String) (shuffled : List Team)
    (now : Nat) : Except ServiceError Tournament × List Tournament :=
  match getTournament ts tid with
  | none => (Except.error ServiceError.notFound, ts)
  | some t =>
    if t.status ≠ TournamentStatus.registration then
      (Except.error ServiceError.invalidStatus, ts)
    else if t.teams.length ≠ t.teamCount then
      (Except.error ServiceError.notEnoughTeams, ts)
    else
      let ms := generateBracket t.teams shuffled now
      let t' := { t with
        «matches» := ms, status := TournamentStatus.active, updatedAt := now }
      (Except.ok t', setTournament ts t')

/-- Running `checkTournamentProgress` against a registry tournament and
storing its mutations (as `reportMatchResult` does via `updateTournament`). -/
def runProgressCheck (ts : List Tournament) (tid : String) (now : Nat) : List Tournament :=
  match getTournament ts tid with
  | none => ts
  | some t => setTournament ts (checkTournamentProgress t now).2

/-- Registry states reachable from the empty registry through the modelled
operations; fresh ids, option records and the drawn shuffle appear as
constructor arguments, the shuffle constrained to permute the team list as
the source's `sort(() => Math.random() - 0.5)` does. -/
inductive Reachable : List Tournament → Prop
  | init : Reachable []
  | create (ts : List Tournament) (o : CreateTournamentOptions) (newId : String) (now : Nat) :
      Reachable ts → Reachable (createTournament ts o newId now).2
  | startReg (ts : List Tournament) (tid : String) (now : Nat) :
      Reachable ts → Reachable (startRegistration ts tid now).2
  | register (ts : List Tournament) (o : RegisterTeamOptions) (newTeamId : String) (now : Nat) :
      Reachable ts → Reachable (registerTeam ts o newTeamId now).2
  | start (ts : List Tournament) (tid : String) (shuffled : List Team) (now : Nat) :
      Reachable ts → (∀ t, getTournament ts tid = some t → shuffled.Perm t.teams) →
      Reachable (startTournament ts tid shuffled now).2
  | report (ts : List Tournament) (tid mid : String) (h a : Int) (now : Nat) :
      Reachable ts → Reachable (reportMatchResult ts tid mid h a now).2
  | progress (ts : List Tournament) (tid : String) (now : Nat) :
      Reachable ts → Reachable (runProgressCheck ts tid now)

/-- The completed-match invariant of claim C8 for one match. -/
def matchCompletedOk (m : Match) : Prop :=
  m.status = MatchStatus.completed →
    m.homeTeamId ≠ none ∧ m.awayTeamId ≠ none ∧ m.homeRounds ≠ none ∧
    m.awayRounds ≠ none ∧ m.winnerId ≠ none ∧
    (m.winnerId = m.homeTeamId ∨ m.winnerId = m.awayTeamId)

/-- The completed-match invariant of claim C8 over a registry. -/
def completedInv (ts : List Tournament) : Prop :=
  ∀ t ∈ ts, ∀ m ∈ t.matchList, matchCompletedOk m

/-- Strengthened completed-match invariant used to push C8 through the
propagation step: a completed match's team slots are JS-truthy (non-null and
non-empty), so the slot-filling code never touches a completed match. -/
def matchCompletedStrong (m : Match) : Prop :=
  m.status = MatchStatus.completed →
    strFalsy m.homeTeamId = false ∧ strFalsy m.awayTeamId = false ∧
    m.homeRounds ≠ none ∧ m.awayRounds ≠ none ∧ m.winnerId ≠ none ∧
    (m.winnerId = m.homeTeamId ∨ m.winnerId = m.awayTeamId)

/-- `matchCompletedStrong` over a registry. -/
def strongInv (ts : List Tournament) : Prop :=
  ∀ t ∈ ts, ∀ m ∈ t.matchList, matchCompletedStrong m

/-- A concrete ready final match (2-team tournament) used by
concrete-instance theorems. -/
def wFinalMatch : Match :=
  { id := "f1", tournamentId := "t2", stage := 1, stagePosition := 1,
    homeTeamId := some "A", awayTeamId := some "B", winnerId := none,
    homeRounds := none, awayRounds := none, status := .ready,
    nextMatchId := none, createdAt := 0, updatedAt := 0, completedAt := none }

/-- A concrete active 2-team tournament whose only match is the final, used
by concrete-instance theorems. -/
def wTournament2 : Tournament :=
  { id := "t2", name := "Duel", teamCount := 2, status := .active, guildId := "g1",
    currentStage := 1, totalStages := 1, createdAt := 0, updatedAt := 0,
    completedAt := none, teams := [wTeamA, wTeamB], «matches» := [wFinalMatch] }

/-- A concrete ready semifinal used by concrete-instance theorems. -/
def wMatchR1 : Match :=
  { id := "r1", tournamentId := "t3", stage := 1, stagePosition := 1,
    homeTeamId := some "A", awayTeamId := some "B", winnerId := none,
    homeRounds := none, awayRounds := none, status := .ready,
    nextMatchId := some "r3", createdAt := 0, updatedAt := 0, completedAt := none }

/-- A concrete ready semifinal used by concrete-instance theorems. -/
def wMatchR2 : Match :=
  { id := "r2", tournamentId := "t3", stage := 1, stagePosition := 2,
    homeTeamId := some "C", awayTeamId := some "D", winnerId := none,
    homeRounds := none, awayRounds := none, status := .ready,
    nextMatchId := some "r3", createdAt := 0, updatedAt := 0, completedAt := none }

/-- A concrete pending final with empty slots used by concrete-instance
theorems. -/
def wMatchP3 : Match :=
  { id := "r3", tournamentId := "t3", stage := 2, stagePosition := 1,
    homeTeamId := none, awayTeamId := none, winnerId := none,
    homeRounds := none, awayRounds := none, status := .pending,
    nextMatchId := none, createdAt := 0, updatedAt := 0, completedAt := none }

/-- A concrete active 4-team tournament before any report, used by
concrete-instance theorems. -/
def wTournamentMid : Tournament :=
  { id := "t3", name := "Cup3", teamCount := 4, status := .active, guildId := "g1",
    currentStage := 1, totalStages := 2, createdAt := 0, updatedAt := 0,
    completedAt := none, teams := [wTeamA, wTeamB, wTeamC, wTeamD],
    «matches» := [wMatchR1, wMatchR2, wMatchP3] }

end ValorantBot

namespace ValorantBot

/-- Claim C1: `isValidValorantScore a b` is true exactly when `a` and `b` are
non-negative, distinct, and form either a regulation win (`max = 13`,
`min ≤ 11`) or an extended-play win (`min ≥ 12`, gap `≥ 2`); together with
the concrete table (13,11) (13,12) (12,12) (14,12) (14,13) (16,14) (0,0). -/
theorem isValidValorantScore_correct :
    (∀ a b : Int, isValidValorantScore a b = true ↔
      (0 ≤ a ∧ 0 ≤ b ∧ a ≠ b ∧
        ((max a b = 13 ∧ min a b ≤ 11) ∨ (12 ≤ min a b ∧ 2 ≤ max a b - min a b)))) ∧
    isValidValorantScore 13 11 = true ∧
    isValidValorantScore 13 12 = false ∧
    isValidValorantScore 12 12 = false ∧
    isValidValorantScore 14 12 = true ∧
    isValidValorantScore 14 13 = false ∧
    isValidValorantScore 16 14 = true ∧
    isValidValorantScore 0 0 = false := by
  refine ⟨?_, by decide, by decide, by decide, by decide, by decide, by decide, by decide⟩
  intro a b
  unfold isValidValorantScore
  split_ifs with h1 h2 h3 h4 <;> simp_all <;> omega

/-- Claim C9: `getWinner a b` is `none` exactly when the score is invalid;
on a valid score it is `home` when `a > b` and `away` when `a < b`. The
function is a total Lean function on all integer inputs by construction. -/
theorem getWinner_correct (a b : Int) :
    (getWinner a b = none ↔ isValidValorantScore a b = false) ∧
    (isValidValorantScore a b = true →
      (a > b → getWinner a b = some WinnerSide.home) ∧
      (a < b → getWinner a b = some WinnerSide.away)) := by
  unfold getWinner
  by_cases h : isValidValorantScore a b
  · refine ⟨by simp [h]; split <;> simp, fun _ => ⟨fun hab => by simp [h, hab], fun hab => ?_⟩⟩
    have : ¬ a > b := by omega
    simp [h, this]
  · simp_all

/-- Witness for C9 at the concrete valid score 13-11. -/
theorem getWinner_correct_witness :
    isValidValorantScore 13 11 = true ∧ getWinner 13 11 = some WinnerSide.home :=
  ⟨by decide, (getWinner_correct 13 11).2 (by decide) |>.1 (by decide)⟩

theorem mkBracketPre_stage (tid sh T r mn mid now) :
    (mkBracketPre tid sh T r mn mid now).base.stage = r := rfl

theorem mkBracketPre_pos (tid sh T r mn mid now) :
    (mkBracketPre tid sh T r mn mid now).base.stagePosition = mn := rfl

theorem mkBracketPre_id (tid sh T r mn mid now) :
    (mkBracketPre tid sh T r mn mid now).base.id = mid := rfl

theorem mkBracketPre_nextKey (tid sh T r mn mid now) :
    (mkBracketPre tid sh T r mn mid now).nextKey =
      if r < T then some (r + 1, (mn + 1) / 2) else none := rfl

theorem resolveLink_stage (idMap : List ((Nat × Nat) × String)) (p : PreMatch) :
    (resolveLink idMap p).stage = p.base.stage := by
  cases hk : p.nextKey with
  | none => simp [resolveLink, hk]
  | some k =>
    cases hl : idMap.lookup k with
    | none => simp [resolveLink, hk, hl]
    | some rid => simp [resolveLink, hk, hl]

theorem resolveLink_pos (idMap : List ((Nat × Nat) × String)) (p : PreMatch) :
    (resolveLink idMap p).stagePosition = p.base.stagePosition := by
  cases hk : p.nextKey with
  | none => simp [resolveLink, hk]
  | some k =>
    cases hl : idMap.lookup k with
    | none => simp [resolveLink, hk, hl]
    | some rid => simp [resolveLink, hk, hl]

theorem resolveLink_id (idMap : List ((Nat × Nat) × String)) (p : PreMatch) :
    (resolveLink idMap p).id = p.base.id := by
  cases hk : p.nextKey with
  | none => simp [resolveLink, hk]
  | some k =>
    cases hl : idMap.lookup k with
    | none => simp [resolveLink, hk, hl]
    | some rid => simp [resolveLink, hk, hl]

theorem resolveLink_teamsStatus (idMap : List ((Nat × Nat) × String)) (p : PreMatch) :
    (resolveLink idMap p).homeTeamId = p.base.homeTeamId ∧
    (resolveLink idMap p).awayTeamId = p.base.awayTeamId ∧
    (resolveLink idMap p).winnerId = p.base.winnerId ∧
    (resolveLink idMap p).homeRounds = p.base.homeRounds ∧
    (resolveLink idMap p).awayRounds = p.base.awayRounds ∧
    (resolveLink idMap p).status = p.base.status := by
  cases hk : p.nextKey with
  | none => simp [resolveLink, hk]
  | some k =>
    cases hl : idMap.lookup k with
    | none => simp [resolveLink, hk, hl]
    | some rid => simp [resolveLink, hk, hl]

theorem resolveLink_next_of_none (idMap : List ((Nat × Nat) × String)) (p : PreMatch)
    (h : p.nextKey = none) : (resolveLink idMap p).nextMatchId = p.base.nextMatchId := by
  simp [resolveLink, h]

theorem resolveLink_next_of_some (idMap : List ((Nat × Nat) × String)) (p : PreMatch)
    (k : Nat × Nat) (rid : String) (h : p.nextKey = some k) (hl : idMap.lookup k = some rid) :
    (resolveLink idMap p).nextMatchId = some rid := by
  simp [resolveLink, h, hl]

theorem lookup_eq_some_iff_of_nodup {α β : Type} [BEq α] [LawfulBEq α]
    (l : List (α × β)) (hnd : (l.map Prod.fst).Nodup) (k : α) (v : β) :
    l.lookup k = some v ↔ (k, v) ∈ l := by
  induction l with
  | nil => simp [List.lookup]
  | cons hd tl ih =>
    obtain ⟨a, b⟩ := hd
    simp only [List.map_cons, List.nodup_cons] at hnd
    by_cases hk : k = a
    · subst hk
      have h1 : List.lookup k ((k, b) :: tl) = some b := by simp [List.lookup]
      rw [h1]
      constructor
      · intro hv
        simp only [Option.some.injEq] at hv
        subst hv
        exact List.mem_cons_self _ _
      · intro hmem
        rcases List.mem_cons.mp hmem with h | h
        · rw [Prod.mk.injEq] at h
          rw [h.2]
        · exact absurd (List.mem_map.mpr ⟨(k, v), h, rfl⟩) hnd.1
    · have hne : (k == a) = false := beq_false_of_ne hk
      have h1 : List.lookup k ((a, b) :: tl) = List.lookup k tl := by
        simp [List.lookup, hne]
      rw [h1, ih hnd.2]
      constructor
      · exact fun h => List.mem_cons_of_mem _ h
      · intro hmem
        rcases List.mem_cons.mp hmem with h | h
        · rw [Prod.mk.injEq] at h
          exact absurd h.1 hk
        · exact h

theorem mem_bracketRounds {tid : String} {sh : List Team} {T now : Nat} :
    ∀ {remaining round startIdx : Nat} {p : PreMatch},
      p ∈ bracketRounds tid sh T now remaining round startIdx →
      ∃ r mn mid, round ≤ r ∧ r < round + remaining ∧ 1 ≤ mn ∧ mn ≤ 2 ^ (T - r) ∧
        p = mkBracketPre tid sh T r mn mid now := by
  intro remaining
  induction remaining with
  | zero => intro round s p hp; simp [bracketRounds] at hp
  | succ rem ih =>
    intro round s p hp
    simp only [bracketRounds, List.mem_append] at hp
    rcases hp with hp | hp
    · simp only [bracketRound, List.mem_map, List.mem_range] at hp
      obtain ⟨j, hj, rfl⟩ := hp
      exact ⟨round, j + 1, _, le_refl _, by omega, by omega, by omega, rfl⟩
    · obtain ⟨r, mn, mid, h1, h2, h3, h4, rfl⟩ := ih hp
      exact ⟨r, mn, mid, by omega, by omega, h3, h4, rfl⟩

theorem mkBracketPre_mem_bracketRounds {tid : String} {sh : List Team} {T now : Nat} :
    ∀ (remaining round startIdx r mn : Nat), round ≤ r → r < round + remaining →
      1 ≤ mn → mn ≤ 2 ^ (T - r) →
      ∃ mid, mkBracketPre tid sh T r mn mid now ∈
        bracketRounds tid sh T now remaining round startIdx := by
  intro remaining
  induction remaining with
  | zero => intro round s r mn h1 h2; omega
  | succ rem ih =>
    intro round s r mn h1 h2 h3 h4
    by_cases hr : r = round
    · subst hr
      refine ⟨generateMatchId (s + (mn - 1)), ?_⟩
      simp only [bracketRounds, List.mem_append]
      left
      simp only [bracketRound, List.mem_map, List.mem_range]
      refine ⟨mn - 1, by omega, ?_⟩
      have hmn : mn - 1 + 1 = mn := by omega
      rw [hmn]
    · obtain ⟨mid, hm⟩ := ih (round + 1) (s + 2 ^ (T - round)) r mn (by omega) (by omega) h3 h4
      refine ⟨mid, ?_⟩
      simp only [bracketRounds, List.mem_append]
      exact Or.inr hm

theorem bracketRounds_keys_nodup {tid : String} {sh : List Team} {T now : Nat} :
    ∀ (remaining round startIdx : Nat),
      ((bracketRounds tid sh T now remaining round startIdx).map
        (fun p => (p.base.stage, p.base.stagePosition))).Nodup := by
  intro remaining
  induction remaining with
  | zero => intro round s; simp [bracketRounds]
  | succ rem ih =>
    intro round s
    simp only [bracketRounds, List.map_append]
    rw [List.nodup_append]
    refine ⟨?_, ih _ _, ?_⟩
    · have hmap : (bracketRound tid sh T round s now).map
          (fun p => (p.base.stage, p.base.stagePosition))
          = (List.range (2 ^ (T - round))).map (fun j => (round, j + 1)) := by
        simp only [bracketRound, List.map_map]
        rfl
      rw [hmap]
      refine List.Nodup.map ?_ (List.nodup_range _)
      intro x y hxy
      simpa using hxy
    · intro k hk1 hk2
      simp only [List.mem_map] at hk1 hk2
      obtain ⟨p, hp, rfl⟩ := hk1
      obtain ⟨q, hq, hkey⟩ := hk2
      simp only [bracketRound, List.mem_map, List.mem_range] at hp
      obtain ⟨j, hj, rfl⟩ := hp
      obtain ⟨r', mn, mid, ha, hb, hc, hd, rfl⟩ := mem_bracketRounds hq
      simp only [mkBracketPre_stage, mkBracketPre_pos, Prod.mk.injEq] at hkey
      omega

theorem bracketRounds_length {tid : String} {sh : List Team} {T now : Nat} :
    ∀ (remaining round startIdx : Nat), round + remaining = T + 1 →
      (bracketRounds tid sh T now remaining round startIdx).length = 2 ^ remaining - 1 := by
  intro remaining
  induction remaining with
  | zero => intro round s h; simp [bracketRounds]
  | succ rem ih =>
    intro round s h
    simp only [bracketRounds, List.length_append, bracketRound, List.length_map,
      List.length_range]
    rw [ih (round + 1) (s + 2 ^ (T - round)) (by omega)]
    have hTr : T - round = rem := by omega
    rw [hTr]
    have h1 : 1 ≤ 2 ^ rem := Nat.one_le_two_pow
    have h2 : 2 ^ (rem + 1) = 2 ^ rem * 2 := pow_succ 2 rem
    omega

theorem bracketRounds_filter_stage {tid : String} {sh : List Team} {T now : Nat} :
    ∀ (remaining round startIdx r : Nat), round ≤ r → r < round + remaining →
      ((bracketRounds tid sh T now remaining round startIdx).filter
        (fun p => p.base.stage == r)).length = 2 ^ (T - r) := by
  intro remaining
  induction remaining with
  | zero => intro round s r h1 h2; omega
  | succ rem ih =>
    intro round s r h1 h2
    simp only [bracketRounds, List.filter_append, List.length_append]
    by_cases hr : r = round
    · subst hr
      have hb : (bracketRound tid sh T r s now).filter (fun p => p.base.stage == r)
              = bracketRound tid sh T r s now := by
        rw [List.filter_eq_self]
        intro p hp
        simp only [bracketRound, List.mem_map, List.mem_range] at hp
        obtain ⟨j, hj, rfl⟩ := hp
        simp [mkBracketPre_stage]
      have ht : (bracketRounds tid sh T now rem (r + 1) (s + 2 ^ (T - r))).filter
                  (fun p => p.base.stage == r) = [] := by
        rw [List.filter_eq_nil_iff]
        intro p hp
        obtain ⟨r', mn, mid, ha, hb', hc, hd, rfl⟩ := mem_bracketRounds hp
        simp only [mkBracketPre_stage, beq_iff_eq]
        omega
      rw [hb, ht]
      simp [bracketRound]
    · have hb : (bracketRound tid sh T round s now).filter (fun p => p.base.stage == r)
              = [] := by
        rw [List.filter_eq_nil_iff]
        intro p hp
        simp only [bracketRound, List.mem_map, List.mem_range] at hp
        obtain ⟨j, hj, rfl⟩ := hp
        simp only [mkBracketPre_stage, beq_iff_eq]
        omega
      rw [hb]
      simp only [List.length_nil, Nat.zero_add]
      exact ih (round + 1) (s + 2 ^ (T - round)) r (by omega) (by omega)

theorem log2_two_pow (n : Nat) : Nat.log2 (2 ^ n) = n := by
  rw [Nat.log2_eq_log_two]
  exact Nat.log_pow (by norm_num) n

theorem generateBracket_eq (teams shuffled : List Team) (now T : Nat)
    (hN : teams.length = 2 ^ T) :
    generateBracket teams shuffled now =
      (bracketRounds (((teams.head?).map Team.tournamentId).getD "") shuffled T now T 1 0).map
        (resolveLink (bracketIdMap
          (bracketRounds (((teams.head?).map Team.tournamentId).getD "") shuffled T now T 1 0))) := by
  simp only [generateBracket, hN, log2_two_pow]

theorem bracketIdMap_keys {pres : List PreMatch} :
    (bracketIdMap pres).map Prod.fst =
      pres.map (fun p => (p.base.stage, p.base.stagePosition)) := by
  simp only [bracketIdMap, List.map_map]
  rfl

theorem bracket_lookup (tid : String) (sh : List Team) (T now : Nat) (r mn : Nat)
    (h1 : 1 ≤ r) (h2 : r ≤ T) (h3 : 1 ≤ mn) (h4 : mn ≤ 2 ^ (T - r)) :
    ∃ mid p, p ∈ bracketRounds tid sh T now T 1 0 ∧ p.base.stage = r ∧
      p.base.stagePosition = mn ∧ p.base.id = mid ∧
      (bracketIdMap (bracketRounds tid sh T now T 1 0)).lookup (r, mn) = some mid := by
  obtain ⟨mid, hm⟩ := mkBracketPre_mem_bracketRounds T 1 0 r mn h1 (by omega) h3 h4
  refine ⟨mid, _, hm, rfl, rfl, rfl, ?_⟩
  rw [lookup_eq_some_iff_of_nodup]
  · exact List.mem_map.mpr ⟨_, hm, rfl⟩
  · rw [bracketIdMap_keys]
    exact bracketRounds_keys_nodup T 1 0

/-- Claim C3: for a power-of-two team list of size `N = 2^T` the generated
bracket has exactly `N-1` matches, pairwise-distinct (stage, position) pairs,
stages exactly `1..T` with `2^(T-r)` matches in stage `r` positioned in
`1..2^(T-r)`, exactly one match with a null forward link, and every other
forward link resolving to the id of a produced match. -/
theorem generateBracket_structure (teams shuffled : List Team) (now T : Nat)
    (hN : teams.length = 2 ^ T) (hT : 1 ≤ T) :
    (generateBracket teams shuffled now).length = teams.length - 1 ∧
    ((generateBracket teams shuffled now).map (fun m => (m.stage, m.stagePosition))).Nodup ∧
    (∀ r, (∃ m ∈ generateBracket teams shuffled now, m.stage = r) ↔ (1 ≤ r ∧ r ≤ T)) ∧
    (∀ r, 1 ≤ r → r ≤ T →
      ((generateBracket teams shuffled now).filter (fun m => m.stage == r)).length =
        2 ^ (T - r) ∧
      ∀ m ∈ generateBracket teams shuffled now, m.stage = r →
        1 ≤ m.stagePosition ∧ m.stagePosition ≤ 2 ^ (T - r)) ∧
    ((generateBracket teams shuffled now).filter (fun m => m.nextMatchId == none)).length = 1 ∧
    (∀ m ∈ generateBracket teams shuffled now, ∀ nid, m.nextMatchId = some nid →
      ∃ m' ∈ generateBracket teams shuffled now, m'.id = nid) := by
  rw [generateBracket_eq teams shuffled now T hN]
  set tid := ((teams.head?).map Team.tournamentId).getD "" with htid
  set pres := bracketRounds tid shuffled T now T 1 0 with hpres
  set idMap := bracketIdMap pres with hidMap
  refine ⟨?_, ?_, ?_, ?_, ?_, ?_⟩
  · rw [List.length_map, hpres, bracketRounds_length T 1 0 (by omega), hN]
  · have hmm : (pres.map (resolveLink idMap)).map (fun m => (m.stage, m.stagePosition))
        = pres.map (fun p => (p.base.stage, p.base.stagePosition)) := by
      rw [List.map_map]
      apply List.map_congr_left
      intro p hp
      simp [Function.comp, resolveLink_stage, resolveLink_pos]
    rw [hmm, hpres]
    exact bracketRounds_keys_nodup T 1 0
  · intro r
    constructor
    · rintro ⟨m, hm, rfl⟩
      obtain ⟨p, hp, rfl⟩ := List.mem_map.mp hm
      obtain ⟨r', mn, mid, h1, h2, h3, h4, rfl⟩ := mem_bracketRounds hp
      rw [resolveLink_stage, mkBracketPre_stage]
      omega
    · rintro ⟨hr1, hr2⟩
      obtain ⟨mid, p, hp, hstage, hpos, hid, hlk⟩ :=
        bracket_lookup tid shuffled T now r 1 hr1 hr2 le_rfl Nat.one_le_two_pow
      exact ⟨resolveLink idMap p, List.mem_map.mpr ⟨p, hp, rfl⟩,
        by rw [resolveLink_stage, hstage]⟩
  · intro r h1 h2
    constructor
    · rw [List.filter_map, List.length_map]
      have hcg : pres.filter ((fun m => m.stage == r) ∘ resolveLink idMap)
          = pres.filter (fun p => p.base.stage == r) := by
        apply List.filter_congr
        intro p hp
        simp [Function.comp, resolveLink_stage]
      rw [hcg, hpres]
      exact bracketRounds_filter_stage T 1 0 r (by omega) (by omega)
    · intro m hm hstage
      obtain ⟨p, hp, rfl⟩ := List.mem_map.mp hm
      obtain ⟨r', mn, mid, ha, hb, hc, hd, rfl⟩ := mem_bracketRounds hp
      rw [resolveLink_stage, mkBracketPre_stage] at hstage
      subst hstage
      rw [resolveLink_pos, mkBracketPre_pos]
      exact ⟨hc, hd⟩
  · rw [List.filter_map, List.length_map]
    have hcg : pres.filter ((fun m => m.nextMatchId == none) ∘ resolveLink idMap)
        = pres.filter (fun p => p.base.stage == T) := by
      apply List.filter_congr
      intro p hp
      obtain ⟨r, mn, mid, h1, h2, h3, h4, rfl⟩ := mem_bracketRounds hp
      simp only [Function.comp_apply]
      by_cases hrT : r < T
      · have hq2 : (mn + 1) / 2 ≤ 2 ^ (T - (r + 1)) := by
          have hpow : 2 ^ (T - r) = 2 * 2 ^ (T - (r + 1)) := by
            rw [← pow_succ']
            congr 1
            omega
          omega
        obtain ⟨mid', p', hp', hs', hpos', hid', hlk⟩ :=
          bracket_lookup tid shuffled T now (r + 1) ((mn + 1) / 2)
            (by omega) (by omega) (by omega) hq2
        have hkey : (mkBracketPre tid shuffled T r mn mid now).nextKey
            = some (r + 1, (mn + 1) / 2) := by
          rw [mkBracketPre_nextKey, if_pos hrT]
        have hnm := resolveLink_next_of_some idMap _ _ _ hkey hlk
        rw [hnm]
        have hR : ((mkBracketPre tid shuffled T r mn mid now).base.stage == T) = false := by
          rw [mkBracketPre_stage]
          simp only [beq_eq_false_iff_ne, ne_eq]
          omega
        rw [hR]
        rfl
      · have hkey : (mkBracketPre tid shuffled T r mn mid now).nextKey = none := by
          rw [mkBracketPre_nextKey, if_neg hrT]
        have hnm := resolveLink_next_of_none idMap _ hkey
        rw [hnm]
        have hrT' : r = T := by omega
        have hR : ((mkBracketPre tid shuffled T r mn mid now).base.stage == T) = true := by
          rw [mkBracketPre_stage, hrT']
          exact beq_self_eq_true T
        rw [hR]
        rfl
    rw [hcg, hpres, bracketRounds_filter_stage T 1 0 T (by omega) (by omega)]
    simp
  · intro m hm nid hnid
    obtain ⟨p, hp, rfl⟩ := List.mem_map.mp hm
    obtain ⟨r, mn, mid, h1, h2, h3, h4, rfl⟩ := mem_bracketRounds hp
    by_cases hrT : r < T
    · have hq2 : (mn + 1) / 2 ≤ 2 ^ (T - (r + 1)) := by
        have hpow : 2 ^ (T - r) = 2 * 2 ^ (T - (r + 1)) := by
          rw [← pow_succ']
          congr 1
          omega
        omega
      obtain ⟨mid', p', hp', hs', hpos', hid', hlk⟩ :=
        bracket_lookup tid shuffled T now (r + 1) ((mn + 1) / 2)
          (by omega) (by omega) (by omega) hq2
      have hkey : (mkBracketPre tid shuffled T r mn mid now).nextKey
          = some (r + 1, (mn + 1) / 2) := by
        rw [mkBracketPre_nextKey, if_pos hrT]
      have hnm := resolveLink_next_of_some idMap _ _ _ hkey hlk
      rw [hnm] at hnid
      refine ⟨resolveLink idMap p', List.mem_map.mpr ⟨p', hp', rfl⟩, ?_⟩
      rw [resolveLink_id, hid']
      exact (Option.some.injEq _ _ ▸ hnid).symm ▸ rfl
    · have hkey : (mkBracketPre tid shuffled T r mn mid now).nextKey = none := by
        rw [mkBracketPre_nextKey, if_neg hrT]
      have hnm := resolveLink_next_of_none idMap _ hkey
      rw [hnm] at hnid
      exact absurd hnid (by simp [mkBracketPre])

/-- Witness for C3 on a concrete 4-team list. -/
theorem generateBracket_structure_witness :
    ([wTeamA, wTeamB, wTeamC, wTeamD].length = 2 ^ 2 ∧ 1 ≤ 2) ∧
    ((generateBracket [wTeamA, wTeamB, wTeamC, wTeamD] [wTeamC, wTeamA, wTeamD, wTeamB] 0).length
        = [wTeamA, wTeamB, wTeamC, wTeamD].length - 1 ∧
      ((generateBracket [wTeamA, wTeamB, wTeamC, wTeamD] [wTeamC, wTeamA, wTeamD, wTeamB] 0).map
        (fun m => (m.stage, m.stagePosition))).Nodup ∧
      (∀ r, (∃ m ∈ generateBracket [wTeamA, wTeamB, wTeamC, wTeamD]
          [wTeamC, wTeamA, wTeamD, wTeamB] 0, m.stage = r) ↔ (1 ≤ r ∧ r ≤ 2)) ∧
      (∀ r, 1 ≤ r → r ≤ 2 →
        ((generateBracket [wTeamA, wTeamB, wTeamC, wTeamD]
            [wTeamC, wTeamA, wTeamD, wTeamB] 0).filter (fun m => m.stage == r)).length =
          2 ^ (2 - r) ∧
        ∀ m ∈ generateBracket [wTeamA, wTeamB, wTeamC, wTeamD]
            [wTeamC, wTeamA, wTeamD, wTeamB] 0, m.stage = r →
          1 ≤ m.stagePosition ∧ m.stagePosition ≤ 2 ^ (2 - r)) ∧
      ((generateBracket [wTeamA, wTeamB, wTeamC, wTeamD]
          [wTeamC, wTeamA, wTeamD, wTeamB] 0).filter
            (fun m => m.nextMatchId == none)).length = 1 ∧
      (∀ m ∈ generateBracket [wTeamA, wTeamB, wTeamC, wTeamD]
          [wTeamC, wTeamA, wTeamD, wTeamB] 0, ∀ nid, m.nextMatchId = some nid →
        ∃ m' ∈ generateBracket [wTeamA, wTeamB, wTeamC, wTeamD]
          [wTeamC, wTeamA, wTeamD, wTeamB] 0, m'.id = nid)) :=
  ⟨⟨by decide, by decide⟩,
    generateBracket_structure [wTeamA, wTeamB, wTeamC, wTeamD]
      [wTeamC, wTeamA, wTeamD, wTeamB] 0 2 (by decide) (by decide)⟩

/-- Claim C6: in the generated bracket for `2^T` teams, a match of round
`r < T` at position `p` forward-links to the id of the round `r+1` match at
position `ceil(p/2) = (p+1)/2`, and the final (round `T`) has a null link. -/
theorem generateBracket_forward_links (teams shuffled : List Team) (now T : Nat)
    (hN : teams.length = 2 ^ T) (hT : 1 ≤ T) :
    ∀ m ∈ generateBracket teams shuffled now,
      (m.stage = T → m.nextMatchId = none) ∧
      (m.stage < T → ∃ m' ∈ generateBracket teams shuffled now,
        m'.stage = m.stage + 1 ∧ m'.stagePosition = (m.stagePosition + 1) / 2 ∧
        m.nextMatchId = some m'.id) := by
  rw [generateBracket_eq teams shuffled now T hN]
  set tid := ((teams.head?).map Team.tournamentId).getD "" with htid
  set pres := bracketRounds tid shuffled T now T 1 0 with hpres
  set idMap := bracketIdMap pres with hidMap
  intro m hm
  obtain ⟨p, hp, rfl⟩ := List.mem_map.mp hm
  obtain ⟨r, mn, mid, h1, h2, h3, h4, rfl⟩ := mem_bracketRounds hp
  constructor
  · intro hstage
    rw [resolveLink_stage, mkBracketPre_stage] at hstage
    have hkey : (mkBracketPre tid shuffled T r mn mid now).nextKey = none := by
      rw [mkBracketPre_nextKey, if_neg (by omega)]
    rw [resolveLink_next_of_none idMap _ hkey]
    rfl
  · intro hstage
    rw [resolveLink_stage, mkBracketPre_stage] at hstage
    have hq2 : (mn + 1) / 2 ≤ 2 ^ (T - (r + 1)) := by
      have hpow : 2 ^ (T - r) = 2 * 2 ^ (T - (r + 1)) := by
        rw [← pow_succ']
        congr 1
        omega
      omega
    obtain ⟨mid', p', hp', hs', hpos', hid', hlk⟩ :=
      bracket_lookup tid shuffled T now (r + 1) ((mn + 1) / 2)
        (by omega) (by omega) (by omega) hq2
    have hkey : (mkBracketPre tid shuffled T r mn mid now).nextKey
        = some (r + 1, (mn + 1) / 2) := by
      rw [mkBracketPre_nextKey, if_pos hstage]
    refine ⟨resolveLink idMap p', List.mem_map.mpr ⟨p', hp', rfl⟩, ?_, ?_, ?_⟩
    · rw [resolveLink_stage, hs', resolveLink_stage, mkBracketPre_stage]
    · rw [resolveLink_pos, hpos', resolveLink_pos, mkBracketPre_pos]
    · rw [resolveLink_next_of_some idMap _ _ _ hkey hlk, resolveLink_id, hid']

/-- Witness for C6 on a concrete 4-team list. -/
theorem generateBracket_forward_links_witness :
    ([wTeamA, wTeamB, wTeamC, wTeamD].length = 2 ^ 2 ∧ 1 ≤ 2) ∧
    (∀ m ∈ generateBracket [wTeamA, wTeamB, wTeamC, wTeamD]
        [wTeamC, wTeamA, wTeamD, wTeamB] 0,
      (m.stage = 2 → m.nextMatchId = none) ∧
      (m.stage < 2 → ∃ m' ∈ generateBracket [wTeamA, wTeamB, wTeamC, wTeamD]
          [wTeamC, wTeamA, wTeamD, wTeamB] 0,
        m'.stage = m.stage + 1 ∧ m'.stagePosition = (m.stagePosition + 1) / 2 ∧
        m.nextMatchId = some m'.id)) :=
  ⟨⟨by decide, by decide⟩,
    generateBracket_forward_links [wTeamA, wTeamB, wTeamC, wTeamD]
      [wTeamC, wTeamA, wTeamD, wTeamB] 0 2 (by decide) (by decide)⟩

theorem mkBracketPre_home (tid : String) (sh : List Team) (T r mn : Nat) (mid : String)
    (now : Nat) :
    (mkBracketPre tid sh T r mn mid now).base.homeTeamId =
      if r = 1 then (sh.get? ((mn - 1) * 2)).map Team.id else none := rfl

theorem mkBracketPre_away (tid : String) (sh : List Team) (T r mn : Nat) (mid : String)
    (now : Nat) :
    (mkBracketPre tid sh T r mn mid now).base.awayTeamId =
      if r = 1 then (sh.get? ((mn - 1) * 2 + 1)).map Team.id else none := rfl

theorem mkBracketPre_status (tid : String) (sh : List Team) (T r mn : Nat) (mid : String)
    (now : Nat) :
    (mkBracketPre tid sh T r mn mid now).base.status =
      if r = 1 then MatchStatus.ready else MatchStatus.pending := rfl

theorem mkBracketPre_none_fields (tid : String) (sh : List Team) (T r mn : Nat) (mid : String)
    (now : Nat) :
    (mkBracketPre tid sh T r mn mid now).base.winnerId = none ∧
    (mkBracketPre tid sh T r mn mid now).base.homeRounds = none ∧
    (mkBracketPre tid sh T r mn mid now).base.awayRounds = none := ⟨rfl, rfl, rfl⟩

theorem range_flatMap_pair {α : Type} (f : Nat → α) :
    ∀ n : Nat, (List.range n).flatMap (fun j => [f (j * 2), f (j * 2 + 1)])
      = (List.range (n * 2)).map f := by
  intro n
  induction n with
  | zero => simp
  | succ k ih =>
    rw [List.range_succ, List.flatMap_append, ih]
    have h2 : (k + 1) * 2 = k * 2 + 1 + 1 := by ring
    rw [h2, List.range_succ, List.range_succ]
    simp

theorem range_map_get {α : Type} : ∀ (l : List α),
    (List.range l.length).map l.get? = l.map some := by
  intro l
  induction l with
  | nil => simp
  | cons a t ih =>
    rw [List.length_cons, List.range_succ_eq_map, List.map_cons, List.map_cons,
      List.map_map]
    have hc : ((a :: t).get? ∘ Nat.succ) = t.get? := by
      funext i
      rfl
    rw [hc, ih]
    rfl

/-- Claim C7: with `shuffled` the permutation of `teams` drawn by the
shuffle, round-1 matches pair consecutive shuffled teams (home at index
`2*(p-1)`, away at `2*(p-1)+1`) with status ready, all later rounds start
with null teams/scores/winner and status pending, and the round-1 slots in
order enumerate `shuffled` exactly, so each input team occupies exactly one
round-1 slot. -/
theorem generateBracket_seeding (teams shuffled : List Team) (now T : Nat)
    (hperm : shuffled.Perm teams) (hN : teams.length = 2 ^ T) (hT : 1 ≤ T) :
    (∀ m ∈ generateBracket teams shuffled now,
      (m.stage = 1 → ∃ ht hu, shuffled.get? ((m.stagePosition - 1) * 2) = some ht ∧
        shuffled.get? ((m.stagePosition - 1) * 2 + 1) = some hu ∧
        m.homeTeamId = some ht.id ∧ m.awayTeamId = some hu.id ∧
        m.status = MatchStatus.ready) ∧
      (m.stage ≠ 1 → m.homeTeamId = none ∧ m.awayTeamId = none ∧ m.winnerId = none ∧
        m.homeRounds = none ∧ m.awayRounds = none ∧ m.status = MatchStatus.pending)) ∧
    ((generateBracket teams shuffled now).filter (fun m => m.stage == 1)).flatMap
      (fun m => [m.homeTeamId, m.awayTeamId]) = shuffled.map (fun t => some t.id) := by
  have hlen : shuffled.length = 2 ^ T := by rw [hperm.length_eq, hN]
  rw [generateBracket_eq teams shuffled now T hN]
  set tid := ((teams.head?).map Team.tournamentId).getD "" with htid
  set pres := bracketRounds tid shuffled T now T 1 0 with hpres
  set idMap := bracketIdMap pres with hidMap
  constructor
  · intro m hm
    obtain ⟨p, hp, rfl⟩ := List.mem_map.mp hm
    obtain ⟨r, mn, mid, h1, h2, h3, h4, rfl⟩ := mem_bracketRounds hp
    obtain ⟨ph, pa, pw, pr1, pr2, pst⟩ := resolveLink_teamsStatus idMap
      (mkBracketPre tid shuffled T r mn mid now)
    constructor
    · intro hstage
      rw [resolveLink_stage, mkBracketPre_stage] at hstage
      subst hstage
      have hb : mn ≤ 2 ^ (T - 1) := h4
      have hpow : 2 ^ T = 2 ^ (T - 1) * 2 := by
        rw [← pow_succ]
        congr 1
        omega
      have hidx : (mn - 1) * 2 + 1 < shuffled.length := by
        rw [hlen]
        omega
      have hidx0 : (mn - 1) * 2 < shuffled.length := by omega
      refine ⟨shuffled.get ⟨(mn - 1) * 2, hidx0⟩, shuffled.get ⟨(mn - 1) * 2 + 1, hidx⟩,
        ?_, ?_, ?_, ?_, ?_⟩
      · rw [resolveLink_pos, mkBracketPre_pos]
        exact List.get?_eq_get hidx0
      · rw [resolveLink_pos, mkBracketPre_pos]
        exact List.get?_eq_get hidx
      · rw [ph, mkBracketPre_home, if_pos rfl, List.get?_eq_get hidx0]
        rfl
      · rw [pa, mkBracketPre_away, if_pos rfl, List.get?_eq_get hidx]
        rfl
      · rw [pst, mkBracketPre_status, if_pos rfl]
    · intro hstage
      rw [resolveLink_stage, mkBracketPre_stage] at hstage
      obtain ⟨pn1, pn2, pn3⟩ := mkBracketPre_none_fields tid shuffled T r mn mid now
      refine ⟨?_, ?_, ?_, ?_, ?_, ?_⟩
      · rw [ph, mkBracketPre_home, if_neg hstage]
      · rw [pa, mkBracketPre_away, if_neg hstage]
      · rw [pw, pn1]
      · rw [pr1, pn2]
      · rw [pr2, pn3]
      · rw [pst, mkBracketPre_status, if_neg hstage]
  · obtain ⟨k, rfl⟩ : ∃ k, T = k + 1 := ⟨T - 1, by omega⟩
    rw [hpres]
    rw [show bracketRounds tid shuffled (k + 1) now (k + 1) 1 0 =
        bracketRound tid shuffled (k + 1) 1 0 now ++
          bracketRounds tid shuffled (k + 1) now k 2 (0 + 2 ^ (k + 1 - 1)) from rfl]
    rw [List.map_append, List.filter_append]
    have hrest : (List.map (resolveLink idMap)
        (bracketRounds tid shuffled (k + 1) now k 2 (0 + 2 ^ (k + 1 - 1)))).filter
          (fun m => m.stage == 1) = [] := by
      rw [List.filter_eq_nil_iff]
      intro m hm
      obtain ⟨p, hp, rfl⟩ := List.mem_map.mp hm
      obtain ⟨r, mn, mid, ha, hb, hc, hd, rfl⟩ := mem_bracketRounds hp
      rw [resolveLink_stage, mkBracketPre_stage]
      simp only [beq_iff_eq]
      omega
    have hkeep : (List.map (resolveLink idMap)
        (bracketRound tid shuffled (k + 1) 1 0 now)).filter (fun m => m.stage == 1) =
        List.map (resolveLink idMap) (bracketRound tid shuffled (k + 1) 1 0 now) := by
      rw [List.filter_eq_self]
      intro m hm
      obtain ⟨p, hp, rfl⟩ := List.mem_map.mp hm
      simp only [bracketRound, List.mem_map, List.mem_range] at hp
      obtain ⟨j, hj, rfl⟩ := hp
      rw [resolveLink_stage, mkBracketPre_stage]
      exact beq_self_eq_true 1
    rw [hrest, hkeep, List.append_nil]
    have hbind : (List.map (resolveLink idMap)
          (bracketRound tid shuffled (k + 1) 1 0 now)).flatMap
            (fun m => [m.homeTeamId, m.awayTeamId]) =
        (List.range (2 ^ k)).flatMap (fun j =>
          [(shuffled.get? (j * 2)).map Team.id, (shuffled.get? (j * 2 + 1)).map Team.id]) := by
      simp only [bracketRound, List.map_map, List.flatMap_map, Nat.add_sub_cancel]
      congr 1
      funext j
      obtain ⟨ph, pa, _, _, _, _⟩ := resolveLink_teamsStatus idMap
        (mkBracketPre tid shuffled (k + 1) 1 (j + 1) (generateMatchId (0 + j)) now)
      simp only [Function.comp_apply]
      rw [ph, pa, mkBracketPre_home, mkBracketPre_away, if_pos rfl, if_pos rfl]
      simp
    have hpow : 2 ^ k * 2 = 2 ^ (k + 1) := by
      rw [pow_succ]
    rw [hbind, range_flatMap_pair (fun i => (shuffled.get? i).map Team.id) (2 ^ k), hpow,
      ← hlen]
    have hcomp : (List.range shuffled.length).map (fun i => (shuffled.get? i).map Team.id) =
        ((List.range shuffled.length).map shuffled.get?).map (Option.map Team.id) := by
      rw [List.map_map]
      rfl
    rw [hcomp, range_map_get, List.map_map]
    rfl

/-- Witness for C7 on a concrete 4-team list. -/
theorem generateBracket_seeding_witness :
    ([wTeamC, wTeamA, wTeamD, wTeamB].Perm [wTeamA, wTeamB, wTeamC, wTeamD] ∧
      [wTeamA, wTeamB, wTeamC, wTeamD].length = 2 ^ 2 ∧ 1 ≤ 2) ∧
    ((∀ m ∈ generateBracket [wTeamA, wTeamB, wTeamC, wTeamD]
        [wTeamC, wTeamA, wTeamD, wTeamB] 0,
      (m.stage = 1 → ∃ ht hu,
        [wTeamC, wTeamA, wTeamD, wTeamB].get? ((m.stagePosition - 1) * 2) = some ht ∧
        [wTeamC, wTeamA, wTeamD, wTeamB].get? ((m.stagePosition - 1) * 2 + 1) = some hu ∧
        m.homeTeamId = some ht.id ∧ m.awayTeamId = some hu.id ∧
        m.status = MatchStatus.ready) ∧
      (m.stage ≠ 1 → m.homeTeamId = none ∧ m.awayTeamId = none ∧ m.winnerId = none ∧
        m.homeRounds = none ∧ m.awayRounds = none ∧ m.status = MatchStatus.pending)) ∧
    ((generateBracket [wTeamA, wTeamB, wTeamC, wTeamD]
        [wTeamC, wTeamA, wTeamD, wTeamB] 0).filter (fun m => m.stage == 1)).flatMap
      (fun m => [m.homeTeamId, m.awayTeamId]) =
        [wTeamC, wTeamA, wTeamD, wTeamB].map (fun t => some t.id)) :=
  ⟨⟨by decide, by decide, by decide⟩,
    generateBracket_seeding [wTeamA, wTeamB, wTeamC, wTeamD]
      [wTeamC, wTeamA, wTeamD, wTeamB] 0 2 (by decide) (by decide) (by decide)⟩

theorem progressLoop_cons (now : Nat) (t : Tournament) (stage : Nat) (rest : List Nat)
    (cur : Nat) :
    progressLoop now t (stage :: rest) cur =
      if ((t.matchList.filter (fun m => m.stage == stage)).filter
            (fun m => m.status == MatchStatus.completed)).length <
          (t.matchList.filter (fun m => m.stage == stage)).length then
        ⟨cur, false, none, none, t⟩
      else if stage == t.totalStages then
        match (t.matchList.filter (fun m => m.stage == stage)).head? with
        | some finalMatch =>
          ⟨stage + 1, true, (finalOutcome t finalMatch).1, (finalOutcome t finalMatch).2,
            completeTournament t now⟩
        | none => ⟨stage + 1, true, none, none, completeTournament t now⟩
      else progressLoop now t rest (stage + 1) := rfl

theorem stage_filter_complete (t : Tournament) (s : Nat)
    (h : ∀ m ∈ t.matchList, m.stage = s → m.status = MatchStatus.completed) :
    ¬ (((t.matchList.filter (fun m => m.stage == s)).filter
        (fun m => m.status == MatchStatus.completed)).length <
      (t.matchList.filter (fun m => m.stage == s)).length) := by
  have heq : (t.matchList.filter (fun m => m.stage == s)).filter
      (fun m => m.status == MatchStatus.completed)
      = t.matchList.filter (fun m => m.stage == s) := by
    rw [List.filter_eq_self]
    intro m hm
    rw [List.mem_filter] at hm
    have hc := h m hm.1 (by simpa using hm.2)
    simp [hc]
  rw [heq]
  omega

theorem stage_filter_incomplete (t : Tournament) (s : Nat) (m0 : Match)
    (hm0 : m0 ∈ t.matchList) (hs : m0.stage = s) (hst : m0.status ≠ MatchStatus.completed) :
    ((t.matchList.filter (fun m => m.stage == s)).filter
        (fun m => m.status == MatchStatus.completed)).length <
      (t.matchList.filter (fun m => m.stage == s)).length := by
  apply List.length_filter_lt_length_iff_exists.mpr
  refine ⟨m0, List.mem_filter.mpr ⟨hm0, by simp [hs]⟩, by simp [hst]⟩

theorem progressLoop_all_complete (now : Nat) (t : Tournament) (fm : Match)
    (hall : ∀ m ∈ t.matchList, m.status = MatchStatus.completed)
    (hfm : (t.matchList.filter (fun m => m.stage == t.totalStages)).head? = some fm) :
    ∀ (n a cur : Nat), a + n = t.totalStages + 1 → 1 ≤ n →
      progressLoop now t (List.range' a n) cur =
        ⟨t.totalStages + 1, true, (finalOutcome t fm).1, (finalOutcome t fm).2,
          completeTournament t now⟩ := by
  intro n
  induction n with
  | zero => intro a cur h1 h2; omega
  | succ k ih =>
    intro a cur h1 h2
    have hrange : List.range' a (k + 1) = a :: List.range' (a + 1) k := rfl
    rw [hrange, progressLoop_cons,
      if_neg (stage_filter_complete t a (fun m hm _ => hall m hm))]
    by_cases haT : a = t.totalStages
    · have hbeq : (a == t.totalStages) = true := by simp [haT]
      rw [hbeq]
      subst haT
      rw [hfm]
      rfl
    · have hbeq : (a == t.totalStages) = false := by simp [haT]
      rw [hbeq]
      simp only [Bool.false_eq_true, if_false]
      exact ih (a + 1) (a + 1) (by omega) (by omega)

theorem progressLoop_stops (now : Nat) (t : Tournament) (s0 : Nat) (m0 : Match)
    (hm0 : m0 ∈ t.matchList) (hm0s : m0.stage = s0)
    (hm0st : m0.status ≠ MatchStatus.completed)
    (hbelow : ∀ s, s < s0 → ∀ m ∈ t.matchList, m.stage = s → m.status = MatchStatus.completed)
    (hs0T : s0 ≤ t.totalStages) :
    ∀ (n a : Nat), a + n = t.totalStages + 1 → a ≤ s0 →
      progressLoop now t (List.range' a n) a = ⟨s0, false, none, none, t⟩ := by
  intro n
  induction n with
  | zero => intro a h1 h2; omega
  | succ k ih =>
    intro a h1 h2
    have hrange : List.range' a (k + 1) = a :: List.range' (a + 1) k := rfl
    rw [hrange, progressLoop_cons]
    by_cases hstop : a = s0
    · subst hstop
      rw [if_pos (stage_filter_incomplete t a m0 hm0 hm0s hm0st)]
    · have hlt : a < s0 := by omega
      rw [if_neg (stage_filter_complete t a (hbelow a hlt))]
      have hbeq : (a == t.totalStages) = false := by
        simp only [beq_eq_false_iff_ne, ne_eq]
        omega
      rw [hbeq]
      simp only [Bool.false_eq_true, if_false]
      exact ih (a + 1) (by omega) (by omega)

theorem finalOutcome_congr (t1 t2 : Tournament) (fm : Match) (ht : t1.teams = t2.teams) :
    finalOutcome t1 fm = finalOutcome t2 fm := by
  simp only [finalOutcome, ht]

theorem progressLoop_t_fields (now : Nat) (t : Tournament) :
    ∀ (st : List Nat) (cur : Nat),
      (progressLoop now t st cur).t.matchList = t.matchList ∧
      (progressLoop now t st cur).t.teams = t.teams ∧
      (progressLoop now t st cur).t.totalStages = t.totalStages := by
  intro st
  induction st with
  | nil => intro cur; exact ⟨rfl, rfl, rfl⟩
  | cons stage rest ih =>
    intro cur
    rw [progressLoop_cons]
    split_ifs with h1 h2
    · exact ⟨rfl, rfl, rfl⟩
    · cases hh : (t.matchList.filter (fun m => m.stage == stage)).head? with
      | none => exact ⟨rfl, rfl, rfl⟩
      | some fm => exact ⟨rfl, rfl, rfl⟩
    · exact ih (stage + 1)

theorem progressLoop_fst_congr (n n' : Nat) (t1 t2 : Tournament)
    (hm : t1.matchList = t2.matchList) (ht : t1.teams = t2.teams)
    (hs : t1.totalStages = t2.totalStages) :
    ∀ (st : List Nat) (cur : Nat),
      (progressLoop n t1 st cur).currentStage = (progressLoop n' t2 st cur).currentStage ∧
      (progressLoop n t1 st cur).isCompleted = (progressLoop n' t2 st cur).isCompleted ∧
      (progressLoop n t1 st cur).champion = (progressLoop n' t2 st cur).champion ∧
      (progressLoop n t1 st cur).runnerUp = (progressLoop n' t2 st cur).runnerUp := by
  intro st
  induction st with
  | nil => intro cur; exact ⟨rfl, rfl, rfl, rfl⟩
  | cons stage rest ih =>
    intro cur
    rw [progressLoop_cons, progressLoop_cons, hm, hs]
    split_ifs with h1 h2
    · exact ⟨rfl, rfl, rfl, rfl⟩
    · cases hh : (t2.matchList.filter (fun m => m.stage == stage)).head? with
      | none => exact ⟨rfl, rfl, rfl, rfl⟩
      | some fm =>
        exact ⟨rfl, rfl, by simp [finalOutcome_congr t1 t2 fm ht],
          by simp [finalOutcome_congr t1 t2 fm ht]⟩
    · exact ih (stage + 1)

theorem stages_eq_range (t : Tournament) (hT : 1 ≤ t.totalStages)
    (hcover : ∀ s, (∃ m ∈ t.matchList, m.stage = s) ↔ (1 ≤ s ∧ s ≤ t.totalStages)) :
    ((t.matchList.map (fun m => m.stage)).dedup).insertionSort (· ≤ ·) =
      List.range' 1 t.totalStages := by
  apply List.eq_of_perm_of_sorted (r := (· ≤ ·))
  · refine (List.perm_insertionSort _ _).trans ?_
    rw [List.perm_ext_iff_of_nodup (List.nodup_dedup _) (List.nodup_range' 1 t.totalStages)]
    intro a
    rw [List.mem_dedup, List.mem_map, List.mem_range'_1]
    constructor
    · rintro ⟨m, hm, rfl⟩
      have := (hcover m.stage).mp ⟨m, hm, rfl⟩
      omega
    · rintro ⟨h1, h2⟩
      obtain ⟨m, hm, hms⟩ := (hcover a).mpr ⟨h1, by omega⟩
      exact ⟨m, hm, hms⟩
  · exact List.sorted_insertionSort _ _
  · exact (List.pairwise_lt_range' 1 t.totalStages).imp le_of_lt

theorem find?_range'_min : ∀ (n s : Nat) (p : Nat → Bool) (i : Nat),
    (List.range' s n).find? p = some i →
      p i = true ∧ s ≤ i ∧ i < s + n ∧ ∀ j, s ≤ j → j < i → p j = false := by
  intro n
  induction n with
  | zero => intro s p i h; simp at h
  | succ k ih =>
    intro s p i h
    have hrange : List.range' s (k + 1) = s :: List.range' (s + 1) k := rfl
    rw [hrange] at h
    cases hp : p s
    · rw [List.find?_cons, hp] at h
      obtain ⟨h1, h2, h3, h4⟩ := ih (s + 1) p i h
      refine ⟨h1, by omega, by omega, fun j hj1 hj2 => ?_⟩
      by_cases hjs : j = s
      · rw [hjs]
        exact hp
      · exact h4 j (by omega) hj2
    · rw [List.find?_cons, hp] at h
      simp only [Option.some.injEq] at h
      subst h
      exact ⟨hp, le_refl _, by omega, fun j hj1 hj2 => by omega⟩

theorem stageFullyCompleted_false_iff (t : Tournament) (s : Nat) :
    stageFullyCompleted t s = false ↔
      ∃ m ∈ t.matchList, m.stage = s ∧ m.status ≠ MatchStatus.completed := by
  unfold stageFullyCompleted
  rw [List.all_eq_false]
  constructor
  · rintro ⟨m, hm, hns⟩
    rw [List.mem_filter] at hm
    exact ⟨m, hm.1, by simpa using hm.2, by simpa using hns⟩
  · rintro ⟨m, hm, hs, hns⟩
    exact ⟨m, List.mem_filter.mpr ⟨hm, by simp [hs]⟩, by simp [hns]⟩

theorem stageFullyCompleted_true_iff (t : Tournament) (s : Nat) :
    stageFullyCompleted t s = true ↔
      ∀ m ∈ t.matchList, m.stage = s → m.status = MatchStatus.completed := by
  unfold stageFullyCompleted
  rw [List.all_eq_true]
  constructor
  · intro h m hm hs
    have := h m (List.mem_filter.mpr ⟨hm, by simp [hs]⟩)
    simpa using this
  · intro h m hm
    rw [List.mem_filter] at hm
    have := h m hm.1 (by simpa using hm.2)
    simp [this]

theorem check_snd_fields (t : Tournament) (now : Nat) :
    (checkTournamentProgress t now).2.matchList = t.matchList ∧
    (checkTournamentProgress t now).2.teams = t.teams ∧
    (checkTournamentProgress t now).2.totalStages = t.totalStages := by
  obtain ⟨h1, h2, h3⟩ := progressLoop_t_fields now t
    (((t.matchList.map (fun m => m.stage)).dedup).insertionSort (· ≤ ·)) 1
  exact ⟨h1, h2, h3⟩

theorem check_fst_congr (n n' : Nat) (t1 t2 : Tournament)
    (hm : t1.matchList = t2.matchList) (ht : t1.teams = t2.teams)
    (hs : t1.totalStages = t2.totalStages) :
    (checkTournamentProgress t1 n).1 = (checkTournamentProgress t2 n').1 := by
  have hst : ((t1.matchList.map (fun m => m.stage)).dedup).insertionSort (· ≤ ·)
      = ((t2.matchList.map (fun m => m.stage)).dedup).insertionSort (· ≤ ·) := by
    rw [hm]
  obtain ⟨c1, c2, c3, c4⟩ := progressLoop_fst_congr n n' t1 t2 hm ht hs
    (((t2.matchList.map (fun m => m.stage)).dedup).insertionSort (· ≤ ·)) 1
  obtain ⟨f1, f2, f3⟩ := progressLoop_t_fields n t1
    (((t2.matchList.map (fun m => m.stage)).dedup).insertionSort (· ≤ ·)) 1
  obtain ⟨g1, g2, g3⟩ := progressLoop_t_fields n' t2
    (((t2.matchList.map (fun m => m.stage)).dedup).insertionSort (· ≤ ·)) 1
  simp only [checkTournamentProgress, hst, TournamentProgress.mk.injEq]
  refine ⟨c2, ?_, hs, c3, c4⟩
  rw [c1, f3, g3, hs]

/-- Claim C2: for every tournament whose matches cover exactly the stages
`1..totalStages` (with `fm` the one final-stage match),
`checkTournamentProgress` reports completion exactly when every match is
completed; in that case it sets the tournament status to completed, and —
whenever the final's winner id is non-empty and the champion and runner-up
teams resolve — returns their names; in every case (in-progress tournaments
included) the stored `currentStage` becomes `min(firstIncompleteStage,
totalStages)`, and the returned record is unchanged under an immediately
repeated call. -/
theorem checkTournamentProgress_correct
    (t : Tournament) (now : Nat) (fm : Match)
    (hT : 1 ≤ t.totalStages)
    (hcover : ∀ s, (∃ m ∈ t.matchList, m.stage = s) ↔ (1 ≤ s ∧ s ≤ t.totalStages))
    (hfinal : t.matchList.filter (fun m => m.stage == t.totalStages) = [fm]) :
    ((checkTournamentProgress t now).1.isCompleted = true ↔
      ∀ m ∈ t.matchList, m.status = MatchStatus.completed) ∧
    ((∀ m ∈ t.matchList, m.status = MatchStatus.completed) →
      (checkTournamentProgress t now).2.status = TournamentStatus.completed ∧
      ∀ (wid ruId : String) (champTeam ruTeam : Team),
        fm.winnerId = some wid → wid ≠ "" →
        t.teams.find? (fun tm => tm.id == wid) = some champTeam →
        (if fm.homeTeamId == some wid then fm.awayTeamId else fm.homeTeamId)
          = some ruId →
        t.teams.find? (fun tm => tm.id == ruId) = some ruTeam →
        (checkTournamentProgress t now).1.champion = some champTeam.name ∧
        (checkTournamentProgress t now).1.runnerUp = some ruTeam.name) ∧
    (checkTournamentProgress t now).2.currentStage =
      min (firstIncompleteStage t) t.totalStages ∧
    ∀ now', (checkTournamentProgress (checkTournamentProgress t now).2 now').1 =
      (checkTournamentProgress t now).1 := by
  have hstages := stages_eq_range t hT hcover
  by_cases hall : ∀ m ∈ t.matchList, m.status = MatchStatus.completed
  · have hfmhead : (t.matchList.filter (fun m => m.stage == t.totalStages)).head?
        = some fm := by
      rw [hfinal]
      rfl
    have hloop := progressLoop_all_complete now t fm hall hfmhead t.totalStages 1 1
      (by omega) (by omega)
    have hfis : firstIncompleteStage t = t.totalStages + 1 := by
      unfold firstIncompleteStage
      have hnone : (List.range t.totalStages).find?
          (fun i => ! stageFullyCompleted t (i + 1)) = none := by
        rw [List.find?_eq_none]
        intro i hi
        have hsc : stageFullyCompleted t (i + 1) = true :=
          (stageFullyCompleted_true_iff t (i + 1)).mpr (fun m hm _ => hall m hm)
        simp [hsc]
      rw [hnone]
    have hck : checkTournamentProgress t now =
        ({ isCompleted := true,
           currentRound := min (t.totalStages + 1) t.totalStages,
           totalRounds := t.totalStages,
           champion := (finalOutcome t fm).1, runnerUp := (finalOutcome t fm).2 },
         { completeTournament t now with
            currentStage := min (t.totalStages + 1) t.totalStages }) := by
      simp only [checkTournamentProgress, hstages, hloop]
      rfl
    rw [hck]
    refine ⟨⟨fun _ => hall, fun _ => rfl⟩, fun _ => ⟨rfl, ?_⟩, ?_, fun now' => ?_⟩
    · intro wid ruId champTeam ruTeam hw hwne hchamp hruid hru
      have hwid : (wid == "") = false := beq_eq_false_iff_ne.mpr hwne
      have hfo : finalOutcome t fm = (some champTeam.name, some ruTeam.name) := by
        simp only [finalOutcome, hw, hwid, Bool.false_eq_true, if_false]
        have hpred : (fun (tm : Team) => (some tm.id : Option String) ==
            (if fm.homeTeamId == some wid then fm.awayTeamId else fm.homeTeamId)) =
            (fun (tm : Team) => tm.id == ruId) := by
          funext tm
          rw [hruid]
          rfl
        rw [hchamp, hpred, hru]
        rfl
      rw [hfo]
      exact ⟨rfl, rfl⟩
    · rw [hfis]
    · have hc := check_fst_congr now' now
        ({ completeTournament t now with
            currentStage := min (t.totalStages + 1) t.totalStages }) t rfl rfl rfl
      rw [hc, hck]
  · have hex : ∃ m ∈ t.matchList, m.status ≠ MatchStatus.completed := by
      by_contra hc
      push_neg at hc
      exact hall hc
    obtain ⟨m0, hm0, hm0st⟩ := hex
    have hm0stage := (hcover m0.stage).mp ⟨m0, hm0, rfl⟩
    cases hfind : (List.range t.totalStages).find?
        (fun i => ! stageFullyCompleted t (i + 1)) with
    | none =>
      exfalso
      rw [List.find?_eq_none] at hfind
      have hi : m0.stage - 1 ∈ List.range t.totalStages := by
        rw [List.mem_range]
        omega
      have hni := hfind _ hi
      have hsc : stageFullyCompleted t m0.stage = true := by
        have harith : m0.stage - 1 + 1 = m0.stage := by omega
        rw [harith] at hni
        simpa using hni
      exact hm0st ((stageFullyCompleted_true_iff t m0.stage).mp hsc m0 hm0 rfl)
    | some i =>
      rw [List.range_eq_range'] at hfind
      obtain ⟨hp, hle, hlt, hmin⟩ := find?_range'_min t.totalStages 0 _ i hfind
      have hinc : stageFullyCompleted t (i + 1) = false := by simpa using hp
      obtain ⟨m1, hm1, hm1s, hm1st⟩ := (stageFullyCompleted_false_iff t (i + 1)).mp hinc
      have hbelow : ∀ s, s < i + 1 → ∀ m ∈ t.matchList, m.stage = s →
          m.status = MatchStatus.completed := by
        intro s hs m hm hms
        have hsb := (hcover s).mp ⟨m, hm, hms⟩
        have hj := hmin (s - 1) (by omega) (by omega)
        have hsc : stageFullyCompleted t s = true := by
          have harith : s - 1 + 1 = s := by omega
          rw [harith] at hj
          simpa using hj
        exact (stageFullyCompleted_true_iff t s).mp hsc m hm hms
      have hloop := progressLoop_stops now t (i + 1) m1 hm1 hm1s hm1st hbelow
        (by omega) t.totalStages 1 (by omega) (by omega)
      have hfis : firstIncompleteStage t = i + 1 := by
        unfold firstIncompleteStage
        rw [List.range_eq_range', hfind]
      have hck : checkTournamentProgress t now =
          ({ isCompleted := false,
             currentRound := min (i + 1) t.totalStages,
             totalRounds := t.totalStages,
             champion := none, runnerUp := none },
           { t with currentStage := min (i + 1) t.totalStages }) := by
        simp only [checkTournamentProgress, hstages, hloop]
      rw [hck]
      refine ⟨?_, ?_, ?_, fun now' => ?_⟩
      · constructor
        · intro h
          simp at h
        · intro hc
          exact absurd (hc m0 hm0) hm0st
      · intro hc
        exact absurd (hc m0 hm0) hm0st
      · rw [hfis]
      · have hc := check_fst_congr now' now
          ({ t with currentStage := min (i + 1) t.totalStages }) t rfl rfl rfl
        rw [hc, hck]

/-- Witness for C2 on a concrete fully played 4-team tournament. -/
theorem checkTournamentProgress_correct_witness :
    (1 ≤ wTournament.totalStages ∧
      (∀ s, (∃ m ∈ wTournament.matchList, m.stage = s) ↔
        (1 ≤ s ∧ s ≤ wTournament.totalStages)) ∧
      wTournament.matchList.filter (fun m => m.stage == wTournament.totalStages)
        = [wMatch3]) ∧
    (((checkTournamentProgress wTournament 5).1.isCompleted = true ↔
      ∀ m ∈ wTournament.matchList, m.status = MatchStatus.completed) ∧
    ((∀ m ∈ wTournament.matchList, m.status = MatchStatus.completed) →
      (checkTournamentProgress wTournament 5).2.status = TournamentStatus.completed ∧
      ∀ (wid ruId : String) (champTeam ruTeam : Team),
        wMatch3.winnerId = some wid → wid ≠ "" →
        wTournament.teams.find? (fun tm => tm.id == wid) = some champTeam →
        (if wMatch3.homeTeamId == some wid then wMatch3.awayTeamId
          else wMatch3.homeTeamId) = some ruId →
        wTournament.teams.find? (fun tm => tm.id == ruId) = some ruTeam →
        (checkTournamentProgress wTournament 5).1.champion = some champTeam.name ∧
        (checkTournamentProgress wTournament 5).1.runnerUp = some ruTeam.name) ∧
    (checkTournamentProgress wTournament 5).2.currentStage =
      min (firstIncompleteStage wTournament) wTournament.totalStages ∧
    ∀ now', (checkTournamentProgress (checkTournamentProgress wTournament 5).2 now').1 =
      (checkTournamentProgress wTournament 5).1) :=
  ⟨⟨by decide,
    by
      intro s
      constructor
      · rintro ⟨m, hm, rfl⟩
        simp only [wTournament, Tournament.matchList, List.mem_cons,
          List.not_mem_nil, or_false] at hm
        rcases hm with rfl | rfl | rfl <;> decide
      · intro hs
        have hts : wTournament.totalStages = 2 := rfl
        by_cases h1 : s = 1
        · subst h1
          exact ⟨wMatch1, by simp [wTournament, Tournament.matchList], rfl⟩
        · have h2 : s = 2 := by omega
          subst h2
          exact ⟨wMatch3, by simp [wTournament, Tournament.matchList], rfl⟩,
    by decide⟩,
    checkTournamentProgress_correct wTournament 5 wMatch3
      (by decide)
      (by
        intro s
        constructor
        · rintro ⟨m, hm, rfl⟩
          simp only [wTournament, Tournament.matchList, List.mem_cons,
            List.not_mem_nil, or_false] at hm
          rcases hm with rfl | rfl | rfl <;> decide
        · intro hs
          have hts : wTournament.totalStages = 2 := rfl
          by_cases h1 : s = 1
          · subst h1
            exact ⟨wMatch1, by simp [wTournament, Tournament.matchList], rfl⟩
          · have h2 : s = 2 := by omega
            subst h2
            exact ⟨wMatch3, by simp [wTournament, Tournament.matchList], rfl⟩)
      (by decide)⟩

/-- Claim C10: `reportMatchResult` validates the score pair before any
tournament or match lookup or state check: for every invalid pair it fails
with the InvalidScore error (carrying the branch-cascade diagnosis) for any
registry, any ids, any clock, and returns the registry unchanged. -/
theorem reportMatchResult_validates_first (ts : List Tournament) (tid mid : String)
    (h a : Int) (now : Nat) (hinv : isValidValorantScore h a = false) :
    reportMatchResult ts tid mid h a now =
      (Except.error (ReportError.invalidScore (invalidScoreKind h a)), ts) := by
  unfold reportMatchResult
  rw [hinv]
  simp

/-- Witness for C10: the draw 12-12 fails with the draw diagnosis even
against a registry whose addressed match exists and is already completed. -/
theorem reportMatchResult_validates_first_witness :
    isValidValorantScore 12 12 = false ∧
    reportMatchResult [wTournament] "t1" "m1" 12 12 9 =
      (Except.error (ReportError.invalidScore (invalidScoreKind 12 12)), [wTournament]) :=
  ⟨by decide, reportMatchResult_validates_first [wTournament] "t1" "m1" 12 12 9 (by decide)⟩

theorem find?_eq_some_of_nodup_id (l : List Match) (x : Match)
    (hnd : (l.map Match.id).Nodup) (hx : x ∈ l) :
    l.find? (fun mm => mm.id == x.id) = some x := by
  induction l with
  | nil => simp at hx
  | cons m rest ih =>
    simp only [List.map_cons, List.nodup_cons] at hnd
    rcases List.mem_cons.mp hx with rfl | hx_tail
    · simp [List.find?]
    · have hne : (m.id == x.id) = false := by
        rw [beq_eq_false_iff_ne]
        intro he
        exact hnd.1 (he ▸ List.mem_map.mpr ⟨x, hx_tail, rfl⟩)
      rw [List.find?_cons, hne]
      simp only [Bool.false_eq_true, if_false]
      exact ih hnd.2 hx_tail

theorem find?_replaceFirstMatch_ne (l : List Match) (mid : String) (m' : Match) (k : String)
    (hk : k ≠ mid) (hm' : m'.id = mid) :
    (replaceFirstMatch l mid m').find? (fun mm => mm.id == k) =
      l.find? (fun mm => mm.id == k) := by
  induction l with
  | nil => rfl
  | cons m rest ih =>
    by_cases hm : (m.id == mid) = true
    · have hmeq : m.id = mid := by simpa using hm
      simp only [replaceFirstMatch, hm, if_true]
      have h1 : (m'.id == k) = false := by
        rw [beq_eq_false_iff_ne, hm']
        exact fun he => hk he.symm
      have h2 : (m.id == k) = false := by
        rw [beq_eq_false_iff_ne, hmeq]
        exact fun he => hk he.symm
      rw [List.find?_cons, List.find?_cons, h1, h2]
    · have hm2 : (m.id == mid) = false := Bool.eq_false_iff.mpr hm
      simp only [replaceFirstMatch, hm2, Bool.false_eq_true, if_false]
      rw [List.find?_cons, List.find?_cons]
      by_cases hpk : (m.id == k) = true
      · rw [hpk]
      · have hpk2 : (m.id == k) = false := Bool.eq_false_iff.mpr hpk
        rw [hpk2]
        simp only [Bool.false_eq_true, if_false]
        exact ih

theorem mem_replaceFirstMatch_self (l : List Match) (k : String) (x : Match)
    (hex : ∃ y ∈ l, y.id = k) : x ∈ replaceFirstMatch l k x := by
  induction l with
  | nil =>
    obtain ⟨y, hy, _⟩ := hex
    simp at hy
  | cons m rest ih =>
    by_cases hm : (m.id == k) = true
    · simp [replaceFirstMatch, hm]
    · have hm2 : (m.id == k) = false := Bool.eq_false_iff.mpr hm
      simp only [replaceFirstMatch, hm2, Bool.false_eq_true, if_false]
      obtain ⟨y, hy, hyk⟩ := hex
      rcases List.mem_cons.mp hy with rfl | hy'
      · exact absurd (by simp [hyk]) hm
      · exact List.mem_cons_of_mem _ (ih ⟨y, hy', hyk⟩)

theorem mem_replaceFirstMatch_of_ne (l : List Match) (k : String) (x y : Match)
    (hy : y ∈ l) (hne : y.id ≠ k) : y ∈ replaceFirstMatch l k x := by
  induction l with
  | nil => simp at hy
  | cons m rest ih =>
    by_cases hm : (m.id == k) = true
    · simp only [replaceFirstMatch, hm, if_true]
      rcases List.mem_cons.mp hy with rfl | hy'
      · exact absurd (by simpa using hm) hne
      · exact List.mem_cons_of_mem _ hy'
    · have hm2 : (m.id == k) = false := Bool.eq_false_iff.mpr hm
      simp only [replaceFirstMatch, hm2, Bool.false_eq_true, if_false]
      rcases List.mem_cons.mp hy with rfl | hy'
      · exact List.mem_cons_self _ _
      · exact List.mem_cons_of_mem _ (ih hy')

theorem mem_replaceFirstMatch_elim (l : List Match) (k : String) (x z : Match)
    (hz : z ∈ replaceFirstMatch l k x) : z = x ∨ z ∈ l := by
  induction l with
  | nil => simp [replaceFirstMatch] at hz
  | cons m rest ih =>
    by_cases hm : (m.id == k) = true
    · simp only [replaceFirstMatch, hm, if_true] at hz
      rcases List.mem_cons.mp hz with rfl | hz'
      · exact Or.inl rfl
      · exact Or.inr (List.mem_cons_of_mem _ hz')
    · have hm2 : (m.id == k) = false := Bool.eq_false_iff.mpr hm
      simp only [replaceFirstMatch, hm2, Bool.false_eq_true, if_false] at hz
      rcases List.mem_cons.mp hz with rfl | hz'
      · exact Or.inr (List.mem_cons_self _ _)
      · rcases ih hz' with hh | hh
        · exact Or.inl hh
        · exact Or.inr (List.mem_cons_of_mem _ hh)

theorem mem_replaceFirstTournament_elim (ts : List Tournament) (k : String)
    (t' u : Tournament) (hu : u ∈ replaceFirstTournament ts k t') : u = t' ∨ u ∈ ts := by
  induction ts with
  | nil => simp [replaceFirstTournament] at hu
  | cons v rest ih =>
    by_cases hv : (v.id == k) = true
    · simp only [replaceFirstTournament, hv, if_true] at hu
      rcases List.mem_cons.mp hu with rfl | hu'
      · exact Or.inl rfl
      · exact Or.inr (List.mem_cons_of_mem _ hu')
    · have hv2 : (v.id == k) = false := Bool.eq_false_iff.mpr hv
      simp only [replaceFirstTournament, hv2, Bool.false_eq_true, if_false] at hu
      rcases List.mem_cons.mp hu with rfl | hu'
      · exact Or.inr (List.mem_cons_self _ _)
      · rcases ih hu' with hh | hh
        · exact Or.inl hh
        · exact Or.inr (List.mem_cons_of_mem _ hh)

theorem mem_setTournament_elim (ts : List Tournament) (t' u : Tournament)
    (hu : u ∈ setTournament ts t') : u = t' ∨ u ∈ ts := by
  unfold setTournament at hu
  by_cases hany : ts.any (fun v => v.id == t'.id) = true
  · rw [if_pos hany] at hu
    exact mem_replaceFirstTournament_elim ts t'.id t' u hu
  · rw [if_neg hany] at hu
    rcases List.mem_append.mp hu with hh | hh
    · exact Or.inr hh
    · rcases List.mem_cons.mp hh with rfl | hh2
      · exact Or.inl rfl
      · simp at hh2

theorem find?_replaceFirstTournament_self (ts : List Tournament) (k : String)
    (t t3 : Tournament) (hfind : ts.find? (fun u => u.id == k) = some t)
    (hid : t3.id = k) :
    (replaceFirstTournament ts k t3).find? (fun u => u.id == k) = some t3 := by
  induction ts with
  | nil => simp [List.find?] at hfind
  | cons u rest ih =>
    by_cases hu : (u.id == k) = true
    · simp only [replaceFirstTournament, hu, if_true]
      rw [List.find?_cons]
      have ht3 : (t3.id == k) = true := by simp [hid]
      rw [ht3]
    · have hu2 : (u.id == k) = false := Bool.eq_false_iff.mpr hu
      simp only [replaceFirstTournament, hu2, Bool.false_eq_true, if_false]
      rw [List.find?_cons, hu2]
      simp only [Bool.false_eq_true, if_false]
      rw [List.find?_cons, hu2] at hfind
      simp only [Bool.false_eq_true, if_false] at hfind
      exact ih hfind

theorem getTournament_set (ts : List Tournament) (tid : String) (t t3 : Tournament)
    (ht : getTournament ts tid = some t) (hid : t3.id = t.id) :
    getTournament (setTournament ts t3) tid = some t3 := by
  have htf : ts.find? (fun u => u.id == tid) = some t := ht
  have htmem := List.mem_of_find?_eq_some htf
  have htid := List.find?_some htf
  have htid' : t.id = tid := by simpa using htid
  unfold setTournament
  have hany : ts.any (fun u => u.id == t3.id) = true := by
    rw [List.any_eq_true]
    exact ⟨t, htmem, by simp [hid]⟩
  rw [if_pos hany]
  unfold getTournament
  have hres := find?_replaceFirstTournament_self ts tid t t3 htf (by rw [hid, htid'])
  rw [hid, htid']
  exact hres

/-- Counterexample to claim C5 as stated: reporting the final of an active
tournament succeeds and completes the tournament, so the repeated report on
the same match fails with the tournament-not-active error, not
AlreadyCompleted. -/
theorem reportMatchResult_repeat_counterexample :
    (∃ r, (reportMatchResult [wTournament2] "t2" "f1" 13 0 1).1 = Except.ok r ∧
      r.match_.status = MatchStatus.completed) ∧
    isValidValorantScore 13 0 = true ∧
    (reportMatchResult (reportMatchResult [wTournament2] "t2" "f1" 13 0 1).2
        "t2" "f1" 13 0 2).1 = Except.error ReportError.tournamentNotActive ∧
    ReportError.tournamentNotActive ≠ ReportError.alreadyCompleted := by
  refine ⟨⟨_, rfl, rfl⟩, by decide, ?_, by decide⟩
  rfl

/-- Claim C5 (amended): a second `reportMatchResult` on an already completed
match with a valid score always fails and leaves the registry — hence every
field of the match — unchanged; the error is AlreadyCompleted when the
tournament is still active, and the tournament-not-active error when the
first report completed the tournament (or it is otherwise not active). -/
theorem reportMatchResult_already_completed (ts : List Tournament) (tid mid : String)
    (t : Tournament) (m : Match) (h a : Int) (now : Nat)
    (hv : isValidValorantScore h a = true)
    (ht : getTournament ts tid = some t)
    (hm : t.matchList.find? (fun mm => mm.id == mid) = some m)
    (hc : m.status = MatchStatus.completed) :
    (t.status = TournamentStatus.active →
      reportMatchResult ts tid mid h a now =
        (Except.error ReportError.alreadyCompleted, ts)) ∧
    (t.status ≠ TournamentStatus.active →
      reportMatchResult ts tid mid h a now =
        (Except.error ReportError.tournamentNotActive, ts)) := by
  constructor
  · intro hact
    unfold reportMatchResult
    rw [hv]
    simp [ht, hact, hm, hc]
  · intro hnact
    unfold reportMatchResult
    rw [hv]
    simp only [not_true, Bool.not_eq_true, if_false, ht]
    rw [if_pos hnact]

/-- Witness for the amended C5, both branches: repeating a semifinal report
in the still-active 4-team tournament gives AlreadyCompleted; repeating the
final report after it completed the 2-team tournament gives the
not-active error. -/
theorem reportMatchResult_already_completed_witness :
    (isValidValorantScore 13 0 = true ∧
      getTournament [wTournament] "t1" = some wTournament ∧
      wTournament.matchList.find? (fun mm => mm.id == "m1") = some wMatch1 ∧
      wMatch1.status = MatchStatus.completed ∧
      wTournament.status = TournamentStatus.active) ∧
    reportMatchResult [wTournament] "t1" "m1" 13 0 9 =
      (Except.error ReportError.alreadyCompleted, [wTournament]) :=
  ⟨⟨by decide, by decide, by decide, by decide, by decide⟩,
    (reportMatchResult_already_completed [wTournament] "t1" "m1" wTournament wMatch1
      13 0 9 (by decide) (by decide) (by decide) (by decide)).1 (by decide)⟩

theorem reportMatchResult_ok_eq (ts : List Tournament) (tid mid : String)
    (t : Tournament) (m : Match) (h a : Int) (now : Nat)
    (hv : isValidValorantScore h a = true)
    (ht : getTournament ts tid = some t)
    (hact : t.status = TournamentStatus.active)
    (hm : t.matchList.find? (fun mm => mm.id == mid) = some m)
    (hnc : m.status ≠ MatchStatus.completed)
    (hhome : strFalsy m.homeTeamId = false)
    (haway : strFalsy m.awayTeamId = false) :
    reportMatchResult ts tid mid h a now = applyMatchResult ts t m mid h a now := by
  unfold reportMatchResult
  rw [hv]
  simp [ht, hact, hm, hnc, hhome, haway]

theorem progressLoop_t_cases (now : Nat) (t : Tournament) :
    ∀ (st : List Nat) (cur : Nat),
      (progressLoop now t st cur).t = t ∨
      (progressLoop now t st cur).t = completeTournament t now := by
  intro st
  induction st with
  | nil => intro cur; exact Or.inl rfl
  | cons stage rest ih =>
    intro cur
    rw [progressLoop_cons]
    split_ifs with h1 h2
    · exact Or.inl rfl
    · cases hh : (t.matchList.filter (fun m => m.stage == stage)).head? with
      | none => exact Or.inr rfl
      | some fm => exact Or.inr rfl
    · exact ih (stage + 1)

theorem check_snd_id (t : Tournament) (now : Nat) :
    (checkTournamentProgress t now).2.id = t.id := by
  rcases progressLoop_t_cases now t
      (((t.matchList.map (fun m => m.stage)).dedup).insertionSort (· ≤ ·)) 1 with hc | hc <;>
    simp only [checkTournamentProgress, hc] <;> rfl

theorem propagateWinner_some (matches1 : List Match) (nid winnerId : String) (now : Nat)
    (nm : Match) (hnid : nid ≠ "")
    (hfind : matches1.find? (fun mm => mm.id == nid) = some nm) :
    propagateWinner matches1 (some nid) winnerId now =
      (replaceFirstMatch matches1 nid
        ({ advanceIfReady (fillSlots nm winnerId) with updatedAt := now }),
       [{ advanceIfReady (fillSlots nm winnerId) with updatedAt := now }]) := by
  unfold propagateWinner
  have hsf : strFalsy (some nid) = false := by simp [strFalsy, hnid]
  rw [hsf]
  simp only [Bool.false_eq_true, not_false_iff, if_true, Option.getD_some, hfind]

theorem fillSlots_home (nm : Match) (wid : String) (hh : strFalsy nm.homeTeamId = true) :
    fillSlots nm wid = { nm with homeTeamId := some wid } := by
  unfold fillSlots
  rw [if_pos hh]

theorem fillSlots_away (nm : Match) (wid : String) (hh : strFalsy nm.homeTeamId = false)
    (ha : strFalsy nm.awayTeamId = true) :
    fillSlots nm wid = { nm with awayTeamId := some wid } := by
  unfold fillSlots
  rw [if_neg (by simp [hh]), if_pos ha]

theorem fillSlots_none (nm : Match) (wid : String) (hh : strFalsy nm.homeTeamId = false)
    (ha : strFalsy nm.awayTeamId = false) :
    fillSlots nm wid = nm := by
  unfold fillSlots
  rw [if_neg (by simp [hh]), if_neg (by simp [ha])]

theorem fillSlots_id_status (nm : Match) (wid : String) :
    (fillSlots nm wid).id = nm.id ∧ (fillSlots nm wid).status = nm.status := by
  unfold fillSlots
  split_ifs <;> exact ⟨rfl, rfl⟩

theorem advanceIfReady_fields (x : Match) :
    (advanceIfReady x).homeTeamId = x.homeTeamId ∧
    (advanceIfReady x).awayTeamId = x.awayTeamId ∧
    (advanceIfReady x).id = x.id := by
  unfold advanceIfReady
  split_ifs <;> exact ⟨rfl, rfl, rfl⟩

theorem advanceIfReady_ready (x : Match) (h1 : strFalsy x.homeTeamId = false)
    (h2 : strFalsy x.awayTeamId = false) (h3 : x.status = MatchStatus.pending) :
    (advanceIfReady x).status = MatchStatus.ready := by
  unfold advanceIfReady
  rw [if_pos ⟨by simp [h1], by simp [h2], h3⟩]

theorem advanceIfReady_not_pending (x : Match) (h : x.status ≠ MatchStatus.pending) :
    (advanceIfReady x).status = x.status := by
  unfold advanceIfReady
  rw [if_neg (fun hc => h hc.2.2)]

theorem applyMatchResult_linked (ts : List Tournament) (t : Tournament) (m nm : Match)
    (h a : Int) (now : Nat) (nid : String)
    (hlink : m.nextMatchId = some nid) (hnid : nid ≠ "")
    (hfind1 : (replaceFirstMatch t.matchList m.id
        (completedMatch m h a (reportWinnerId m h a) now)).find?
        (fun mm => mm.id == nid) = some nm) :
    applyMatchResult ts t m m.id h a now =
      (Except.ok {
        match_ := completedMatch m h a (reportWinnerId m h a) now,
        winner := ((t.teams.find? (fun tm =>
          tm.id == reportWinnerId m h a)).map Team.name).getD "",
        nextMatches := [{ advanceIfReady (fillSlots nm (reportWinnerId m h a)) with
          updatedAt := now }],
        tournamentCompleted := (checkTournamentProgress { t with
          «matches» := replaceFirstMatch
            (replaceFirstMatch t.matchList m.id
              (completedMatch m h a (reportWinnerId m h a) now))
            nid ({ advanceIfReady (fillSlots nm (reportWinnerId m h a)) with
              updatedAt := now }) } now).1.isCompleted },
       setTournament ts ({ (checkTournamentProgress { t with
          «matches» := replaceFirstMatch
            (replaceFirstMatch t.matchList m.id
              (completedMatch m h a (reportWinnerId m h a) now))
            nid ({ advanceIfReady (fillSlots nm (reportWinnerId m h a)) with
              updatedAt := now }) } now).2 with updatedAt := now })) := by
  simp only [applyMatchResult]
  have hlink2 : (completedMatch m h a (reportWinnerId m h a) now).nextMatchId
      = some nid := hlink
  rw [hlink2, propagateWinner_some _ nid _ now nm hnid hfind1]

/-- Claim C4: completing a match that forward-links to `nm` fills `nm`'s
first falsy team slot with the completed match's winner id (home slot
priority, away slot when home is taken, neither slot disturbed when both are
taken), and when after the fill both slots are non-falsy and `nm` was still
pending its status advances to ready (a non-pending status is never
changed); the mutated `nm` is returned in `nextMatches` and stored in the
registry tournament. -/
theorem reportMatchResult_propagates (ts : List Tournament) (tid : String)
    (t : Tournament) (m nm : Match) (h a : Int) (now : Nat)
    (hv : isValidValorantScore h a = true)
    (ht : getTournament ts tid = some t)
    (hact : t.status = TournamentStatus.active)
    (hnd : (t.matchList.map Match.id).Nodup)
    (hmm : m ∈ t.matchList)
    (hnc : m.status ≠ MatchStatus.completed)
    (hhome : strFalsy m.homeTeamId = false)
    (haway : strFalsy m.awayTeamId = false)
    (hnmm : nm ∈ t.matchList)
    (hlink : m.nextMatchId = some nm.id)
    (hnmne : nm.id ≠ m.id)
    (hnm0 : nm.id ≠ "") :
    ∃ r ts' t' nm3,
      reportMatchResult ts tid m.id h a now = (Except.ok r, ts') ∧
      r.match_.status = MatchStatus.completed ∧
      r.match_.winnerId = some (reportWinnerId m h a) ∧
      r.nextMatches = [nm3] ∧
      getTournament ts' tid = some t' ∧
      nm3 ∈ t'.matchList ∧
      nm3.id = nm.id ∧
      (strFalsy nm.homeTeamId = true →
        nm3.homeTeamId = r.match_.winnerId ∧ nm3.awayTeamId = nm.awayTeamId) ∧
      (strFalsy nm.homeTeamId = false → strFalsy nm.awayTeamId = true →
        nm3.awayTeamId = r.match_.winnerId ∧ nm3.homeTeamId = nm.homeTeamId) ∧
      (strFalsy nm.homeTeamId = false → strFalsy nm.awayTeamId = false →
        nm3.homeTeamId = nm.homeTeamId ∧ nm3.awayTeamId = nm.awayTeamId) ∧
      (strFalsy nm3.homeTeamId = false → strFalsy nm3.awayTeamId = false →
        nm.status = MatchStatus.pending → nm3.status = MatchStatus.ready) ∧
      (nm.status ≠ MatchStatus.pending → nm3.status = nm.status) := by
  have hmfind := find?_eq_some_of_nodup_id t.matchList m hnd hmm
  have heq := reportMatchResult_ok_eq ts tid m.id t m h a now hv ht hact hmfind hnc
    hhome haway
  have hfind1 : (replaceFirstMatch t.matchList m.id
      (completedMatch m h a (reportWinnerId m h a) now)).find?
      (fun mm => mm.id == nm.id) = some nm := by
    rw [find?_replaceFirstMatch_ne t.matchList m.id
      (completedMatch m h a (reportWinnerId m h a) now) nm.id hnmne rfl]
    exact find?_eq_some_of_nodup_id t.matchList nm hnd hnmm
  have happ := applyMatchResult_linked ts t m nm h a now nm.id hlink hnm0 hfind1
  refine ⟨{ match_ := completedMatch m h a (reportWinnerId m h a) now, winner := ((t.teams.find? (fun tm => tm.id == reportWinnerId m h a)).map Team.name).getD "", nextMatches := [({ advanceIfReady (fillSlots nm (reportWinnerId m h a)) with updatedAt := now } : Match)], tournamentCompleted := (checkTournamentProgress ({ t with «matches» := replaceFirstMatch (replaceFirstMatch t.matchList m.id (completedMatch m h a (reportWinnerId m h a) now)) nm.id ({ advanceIfReady (fillSlots nm (reportWinnerId m h a)) with updatedAt := now } : Match) } : Tournament) now).1.isCompleted }, setTournament ts ({ (checkTournamentProgress ({ t with «matches» := replaceFirstMatch (replaceFirstMatch t.matchList m.id (completedMatch m h a (reportWinnerId m h a) now)) nm.id ({ advanceIfReady (fillSlots nm (reportWinnerId m h a)) with updatedAt := now } : Match) } : Tournament) now).2 with updatedAt := now } : Tournament), ({ (checkTournamentProgress ({ t with «matches» := replaceFirstMatch (replaceFirstMatch t.matchList m.id (completedMatch m h a (reportWinnerId m h a) now)) nm.id ({ advanceIfReady (fillSlots nm (reportWinnerId m h a)) with updatedAt := now } : Match) } : Tournament) now).2 with updatedAt := now } : Tournament), ({ advanceIfReady (fillSlots nm (reportWinnerId m h a)) with updatedAt := now } : Match), heq.trans happ, rfl, rfl, rfl, ?_, ?_, ?_, ?_, ?_, ?_, ?_, ?_⟩
  · exact getTournament_set ts tid t _ ht (check_snd_id ({ t with «matches» := replaceFirstMatch (replaceFirstMatch t.matchList m.id (completedMatch m h a (reportWinnerId m h a) now)) nm.id ({ advanceIfReady (fillSlots nm (reportWinnerId m h a)) with updatedAt := now } : Match) } : Tournament) now)
  · have h1 := (check_snd_fields ({ t with «matches» := replaceFirstMatch (replaceFirstMatch t.matchList m.id (completedMatch m h a (reportWinnerId m h a) now)) nm.id ({ advanceIfReady (fillSlots nm (reportWinnerId m h a)) with updatedAt := now } : Match) } : Tournament) now).1
    show ({ advanceIfReady (fillSlots nm (reportWinnerId m h a)) with updatedAt := now } : Match) ∈ (checkTournamentProgress ({ t with «matches» := replaceFirstMatch (replaceFirstMatch t.matchList m.id (completedMatch m h a (reportWinnerId m h a) now)) nm.id ({ advanceIfReady (fillSlots nm (reportWinnerId m h a)) with updatedAt := now } : Match) } : Tournament) now).2.matchList
    rw [h1]
    show ({ advanceIfReady (fillSlots nm (reportWinnerId m h a)) with updatedAt := now } : Match) ∈ replaceFirstMatch (replaceFirstMatch t.matchList m.id (completedMatch m h a (reportWinnerId m h a) now)) nm.id ({ advanceIfReady (fillSlots nm (reportWinnerId m h a)) with updatedAt := now } : Match)
    apply mem_replaceFirstMatch_self
    refine ⟨nm, mem_replaceFirstMatch_of_ne t.matchList m.id _ nm hnmm hnmne, rfl⟩
  · show (advanceIfReady (fillSlots nm (reportWinnerId m h a))).id = nm.id
    rw [(advanceIfReady_fields _).2.2, (fillSlots_id_status nm _).1]
  · intro hh
    constructor
    · show (advanceIfReady (fillSlots nm (reportWinnerId m h a))).homeTeamId = _
      rw [(advanceIfReady_fields _).1, fillSlots_home nm _ hh]
      rfl
    · show (advanceIfReady (fillSlots nm (reportWinnerId m h a))).awayTeamId = _
      rw [(advanceIfReady_fields _).2.1, fillSlots_home nm _ hh]
  · intro hh ha1
    constructor
    · show (advanceIfReady (fillSlots nm (reportWinnerId m h a))).awayTeamId = _
      rw [(advanceIfReady_fields _).2.1, fillSlots_away nm _ hh ha1]
      rfl
    · show (advanceIfReady (fillSlots nm (reportWinnerId m h a))).homeTeamId = _
      rw [(advanceIfReady_fields _).1, fillSlots_away nm _ hh ha1]
  · intro hh ha1
    constructor
    · show (advanceIfReady (fillSlots nm (reportWinnerId m h a))).homeTeamId = _
      rw [(advanceIfReady_fields _).1, fillSlots_none nm _ hh ha1]
    · show (advanceIfReady (fillSlots nm (reportWinnerId m h a))).awayTeamId = _
      rw [(advanceIfReady_fields _).2.1, fillSlots_none nm _ hh ha1]
  · intro h1 h2 h3
    show (advanceIfReady (fillSlots nm (reportWinnerId m h a))).status = _
    apply advanceIfReady_ready
    · rw [← (advanceIfReady_fields (fillSlots nm (reportWinnerId m h a))).1]
      exact h1
    · rw [← (advanceIfReady_fields (fillSlots nm (reportWinnerId m h a))).2.1]
      exact h2
    · rw [(fillSlots_id_status nm _).2]
      exact h3
  · intro hnp
    show (advanceIfReady (fillSlots nm (reportWinnerId m h a))).status = nm.status
    rw [advanceIfReady_not_pending _ (by rw [(fillSlots_id_status nm _).2]; exact hnp),
      (fillSlots_id_status nm _).2]

/-- Witness for C4: reporting the first semifinal of a fresh 4-team bracket
propagates the winner into the pending final. -/
theorem reportMatchResult_propagates_witness :
    (isValidValorantScore 13 7 = true ∧
      getTournament [wTournamentMid] "t3" = some wTournamentMid ∧
      wTournamentMid.status = TournamentStatus.active ∧
      (wTournamentMid.matchList.map Match.id).Nodup ∧
      wMatchR1 ∈ wTournamentMid.matchList ∧
      wMatchR1.status ≠ MatchStatus.completed ∧
      wMatchP3 ∈ wTournamentMid.matchList ∧
      wMatchR1.nextMatchId = some wMatchP3.id) ∧
    ∃ r ts' t' nm3,
      reportMatchResult [wTournamentMid] "t3" wMatchR1.id 13 7 4 = (Except.ok r, ts') ∧
      r.match_.status = MatchStatus.completed ∧
      r.match_.winnerId = some (reportWinnerId wMatchR1 13 7) ∧
      r.nextMatches = [nm3] ∧
      getTournament ts' "t3" = some t' ∧
      nm3 ∈ t'.matchList ∧
      nm3.id = wMatchP3.id ∧
      (strFalsy wMatchP3.homeTeamId = true →
        nm3.homeTeamId = r.match_.winnerId ∧ nm3.awayTeamId = wMatchP3.awayTeamId) ∧
      (strFalsy wMatchP3.homeTeamId = false → strFalsy wMatchP3.awayTeamId = true →
        nm3.awayTeamId = r.match_.winnerId ∧ nm3.homeTeamId = wMatchP3.homeTeamId) ∧
      (strFalsy wMatchP3.homeTeamId = false → strFalsy wMatchP3.awayTeamId = false →
        nm3.homeTeamId = wMatchP3.homeTeamId ∧ nm3.awayTeamId = wMatchP3.awayTeamId) ∧
      (strFalsy nm3.homeTeamId = false → strFalsy nm3.awayTeamId = false →
        wMatchP3.status = MatchStatus.pending → nm3.status = MatchStatus.ready) ∧
      (wMatchP3.status ≠ MatchStatus.pending → nm3.status = wMatchP3.status) :=
  ⟨⟨by decide, by decide, by decide, by decide, by decide, by decide, by decide, by decide⟩,
    reportMatchResult_propagates [wTournamentMid] "t3" wTournamentMid wMatchR1 wMatchP3
      13 7 4 (by decide) (by decide) (by decide) (by decide) (by decide) (by decide)
      (by decide) (by decide) (by decide) (by decide) (by decide) (by decide)⟩

theorem strFalsy_false_getD (o : Option String) (h : strFalsy o = false) :
    o = some (o.getD "") ∧ o.getD "" ≠ "" := by
  cases o with
  | none => simp [strFalsy] at h
  | some s =>
    simp only [strFalsy] at h
    exact ⟨rfl, beq_eq_false_iff_ne.mp h⟩

theorem strFalsy_false_ne_none (o : Option String) (h : strFalsy o = false) : o ≠ none := by
  intro hn
  rw [hn] at h
  simp [strFalsy] at h

theorem advanceIfReady_self (x : Match) (h : x.status ≠ MatchStatus.pending) :
    advanceIfReady x = x := by
  unfold advanceIfReady
  rw [if_neg (fun hc => h hc.2.2)]

theorem strongInv_setTournament (ts : List Tournament) (t' : Tournament)
    (hts : strongInv ts) (ht' : ∀ m ∈ t'.matchList, matchCompletedStrong m) :
    strongInv (setTournament ts t') := by
  intro u hu mm hmm
  rcases mem_setTournament_elim ts t' u hu with rfl | hmem
  · exact ht' mm hmm
  · exact hts u hmem mm hmm

theorem generateBracket_not_completed (teams sh : List Team) (now : Nat) :
    ∀ m ∈ generateBracket teams sh now, m.status ≠ MatchStatus.completed := by
  intro m hm
  simp only [generateBracket] at hm
  obtain ⟨p, hp, rfl⟩ := List.mem_map.mp hm
  obtain ⟨r, mn, mid, h1, h2, h3, h4, rfl⟩ := mem_bracketRounds hp
  rw [(resolveLink_teamsStatus _ _).2.2.2.2.2, mkBracketPre_status]
  split_ifs <;> simp

theorem propagateWinner_fst_mem (matches1 : List Match) (link : Option String)
    (wid : String) (now : Nat) (z : Match)
    (hz : z ∈ (propagateWinner matches1 link wid now).1) :
    z ∈ matches1 ∨ ∃ nm, matches1.find? (fun mm => mm.id == link.getD "") = some nm ∧
      z = { advanceIfReady (fillSlots nm wid) with updatedAt := now } := by
  unfold propagateWinner at hz
  by_cases hsf : strFalsy link = true
  · rw [if_neg (by simp [hsf])] at hz
    exact Or.inl hz
  · have hsf2 : strFalsy link = false := Bool.eq_false_iff.mpr hsf
    rw [if_pos (by simp [hsf2])] at hz
    cases hfind : matches1.find? (fun mm => mm.id == link.getD "") with
    | none =>
      rw [hfind] at hz
      exact Or.inl hz
    | some nm =>
      rw [hfind] at hz
      rcases mem_replaceFirstMatch_elim matches1 (link.getD "") _ z hz with rfl | hmem
      · exact Or.inr ⟨nm, rfl, rfl⟩
      · exact Or.inl hmem

theorem reportMatchResult_snd_cases (ts : List Tournament) (tid mid : String)
    (h a : Int) (now : Nat) :
    (reportMatchResult ts tid mid h a now).2 = ts ∨
    ∃ t m, getTournament ts tid = some t ∧
      t.matchList.find? (fun mm => mm.id == mid) = some m ∧
      strFalsy m.homeTeamId = false ∧ strFalsy m.awayTeamId = false ∧
      (reportMatchResult ts tid mid h a now).2 = (applyMatchResult ts t m mid h a now).2 := by
  unfold reportMatchResult
  by_cases hv : isValidValorantScore h a = true
  · rw [if_neg (by simp [hv])]
    cases hget : getTournament ts tid with
    | none => exact Or.inl rfl
    | some t =>
      dsimp only
      by_cases hact : t.status = TournamentStatus.active
      · rw [if_neg (by simp [hact])]
        cases hfind : t.matchList.find? (fun mm => mm.id == mid) with
        | none => exact Or.inl rfl
        | some m =>
          dsimp only
          by_cases hc : m.status = MatchStatus.completed
          · rw [if_pos hc]
            exact Or.inl rfl
          · rw [if_neg hc]
            by_cases hslots : strFalsy m.homeTeamId = true ∨ strFalsy m.awayTeamId = true
            · rw [if_pos hslots]
              exact Or.inl rfl
            · rw [if_neg hslots]
              push_neg at hslots
              exact Or.inr ⟨t, m, rfl, hfind,
                Bool.eq_false_iff.mpr (fun hx => hslots.1 hx),
                Bool.eq_false_iff.mpr (fun hx => hslots.2 hx), rfl⟩
      · rw [if_pos hact]
        exact Or.inl rfl
  · rw [if_pos (by simp [hv])]
    exact Or.inl rfl

theorem strongInv_applyMatchResult (ts : List Tournament) (t : Tournament) (m : Match)
    (mid : String) (h a : Int) (now : Nat)
    (hts : strongInv ts) (htmem : t ∈ ts)
    (hhome : strFalsy m.homeTeamId = false) (haway : strFalsy m.awayTeamId = false) :
    strongInv (applyMatchResult ts t m mid h a now).2 := by
  have hm2strong : matchCompletedStrong (completedMatch m h a (reportWinnerId m h a) now) := by
    intro hcc
    obtain ⟨he, hne⟩ := strFalsy_false_getD m.homeTeamId hhome
    obtain ⟨he2, hne2⟩ := strFalsy_false_getD m.awayTeamId haway
    refine ⟨hhome, haway, Option.some_ne_none h, Option.some_ne_none a,
      Option.some_ne_none _, ?_⟩
    by_cases hside : getWinner h a = some WinnerSide.home
    · left
      show (some (reportWinnerId m h a) : Option String) = m.homeTeamId
      simp only [reportWinnerId]
      rw [if_pos hside]
      exact he.symm
    · right
      show (some (reportWinnerId m h a) : Option String) = m.awayTeamId
      simp only [reportWinnerId]
      rw [if_neg hside]
      exact he2.symm
  intro u hu mm hmm
  rcases mem_setTournament_elim ts ({ (checkTournamentProgress ({ t with «matches» := (propagateWinner (replaceFirstMatch t.matchList mid (completedMatch m h a (reportWinnerId m h a) now)) (completedMatch m h a (reportWinnerId m h a) now).nextMatchId (reportWinnerId m h a) now).1 } : Tournament) now).2 with updatedAt := now } : Tournament) u hu with rfl | hmem
  · have hfield := (check_snd_fields ({ t with «matches» := (propagateWinner (replaceFirstMatch t.matchList mid (completedMatch m h a (reportWinnerId m h a) now)) (completedMatch m h a (reportWinnerId m h a) now).nextMatchId (reportWinnerId m h a) now).1 } : Tournament) now).1
    have hmm1 : mm ∈ (({ t with «matches» := (propagateWinner (replaceFirstMatch t.matchList mid (completedMatch m h a (reportWinnerId m h a) now)) (completedMatch m h a (reportWinnerId m h a) now).nextMatchId (reportWinnerId m h a) now).1 } : Tournament)).matchList :=
      hfield ▸ (show mm ∈ (checkTournamentProgress ({ t with «matches» := (propagateWinner (replaceFirstMatch t.matchList mid (completedMatch m h a (reportWinnerId m h a) now)) (completedMatch m h a (reportWinnerId m h a) now).nextMatchId (reportWinnerId m h a) now).1 } : Tournament) now).2.matchList from hmm)
    have hmm2 : mm ∈ (propagateWinner (replaceFirstMatch t.matchList mid (completedMatch m h a (reportWinnerId m h a) now)) (completedMatch m h a (reportWinnerId m h a) now).nextMatchId (reportWinnerId m h a) now).1 := hmm1
    rcases propagateWinner_fst_mem (replaceFirstMatch t.matchList mid (completedMatch m h a (reportWinnerId m h a) now)) (completedMatch m h a (reportWinnerId m h a) now).nextMatchId (reportWinnerId m h a) now mm hmm2
      with hmm3 | ⟨nmx, hfindx, rfl⟩
    · rcases mem_replaceFirstMatch_elim t.matchList mid (completedMatch m h a (reportWinnerId m h a) now) mm hmm3 with rfl | hmm4
      · exact hm2strong
      · exact hts t htmem mm hmm4
    · have hnmx : nmx ∈ (replaceFirstMatch t.matchList mid (completedMatch m h a (reportWinnerId m h a) now)) := List.mem_of_find?_eq_some hfindx
      have hnmstrong : matchCompletedStrong nmx := by
        rcases mem_replaceFirstMatch_elim t.matchList mid (completedMatch m h a (reportWinnerId m h a) now) nmx hnmx with rfl | hmm5
        · exact hm2strong
        · exact hts t htmem nmx hmm5
      by_cases hnmc : nmx.status = MatchStatus.completed
      · obtain ⟨s1, s2, s3, s4, s5, s6⟩ := hnmstrong hnmc
        have hfill : fillSlots nmx (reportWinnerId m h a) = nmx := fillSlots_none nmx (reportWinnerId m h a) s1 s2
        have hadv : advanceIfReady nmx = nmx := advanceIfReady_self nmx (by rw [hnmc]; simp)
        rw [hfill, hadv]
        intro _
        exact ⟨s1, s2, s3, s4, s5, s6⟩
      · intro h3c
        exfalso
        have h3c2 : (advanceIfReady (fillSlots nmx (reportWinnerId m h a))).status
            = MatchStatus.completed := h3c
        have hcases : (advanceIfReady (fillSlots nmx (reportWinnerId m h a))).status = MatchStatus.ready ∨
            (advanceIfReady (fillSlots nmx (reportWinnerId m h a))).status
              = (fillSlots nmx (reportWinnerId m h a)).status := by
          unfold advanceIfReady
          split_ifs
          · exact Or.inl rfl
          · exact Or.inr rfl
        rcases hcases with hx | hx
        · rw [hx] at h3c2
          simp at h3c2
        · rw [hx, (fillSlots_id_status nmx (reportWinnerId m h a)).2] at h3c2
          exact hnmc h3c2
  · exact hts u hmem mm hmm

/-- Claim C8: every registry state reachable (from the empty registry) via
create, startRegistration, registerTeam, startTournament, reportMatchResult
and checkTournamentProgress satisfies the completed-match invariant: a
completed match has non-null home and away team references, non-null scores,
a non-null winner, and the winner equals the home or the away team; each
listed operation preserves the invariant. -/
theorem reachable_completedInv (ts : List Tournament) (hr : Reachable ts) :
    completedInv ts := by
  have hstrong : strongInv ts := by
    induction hr with
    | init =>
      intro u hu
      simp at hu
    | create ts o nid now hr ih =>
      unfold createTournament
      cases hf : findByNameAndGuild ts o.name o.guildId with
      | some t0 => exact ih
      | none =>
        dsimp only
        apply strongInv_setTournament ts _ ih
        intro mm hmm
        simp [Tournament.matchList] at hmm
    | startReg ts tid now hr ih =>
      unfold startRegistration
      cases hget : getTournament ts tid with
      | none => exact ih
      | some t =>
        dsimp only
        have hget2 : ts.find? (fun u => u.id == tid) = some t := hget
        have htmem := List.mem_of_find?_eq_some hget2
        by_cases hst : t.status = TournamentStatus.draft
        · rw [if_neg (by simp [hst])]
          apply strongInv_setTournament ts _ ih
          intro mm hmm
          exact ih t htmem mm hmm
        · rw [if_pos hst]
          exact ih
    | register ts o ntid now hr ih =>
      unfold registerTeam
      cases hget : getTournament ts o.tournamentId with
      | none => exact ih
      | some t =>
        dsimp only
        have hget2 : ts.find? (fun u => u.id == o.tournamentId) = some t := hget
        have htmem := List.mem_of_find?_eq_some hget2
        by_cases h1 : t.status = TournamentStatus.registration
        · rw [if_neg (by simp [h1])]
          by_cases h2 : canRegisterTeam ts o.tournamentId = true
          · rw [if_neg (by simp [h2])]
            by_cases h3 : isTeamNameTaken ts o.tournamentId o.name = true
            · rw [if_pos h3]
              exact ih
            · rw [if_neg h3]
              apply strongInv_setTournament ts _ ih
              intro mm hmm
              exact ih t htmem mm hmm
          · rw [if_pos (by simp [h2])]
            exact ih
        · rw [if_pos h1]
          exact ih
    | start ts tid shuffled now hr hperm ih =>
      unfold startTournament
      cases hget : getTournament ts tid with
      | none => exact ih
      | some t =>
        dsimp only
        by_cases h1 : t.status = TournamentStatus.registration
        · rw [if_neg (by simp [h1])]
          by_cases h2 : t.teams.length = t.teamCount
          · rw [if_neg (by simp [h2])]
            apply strongInv_setTournament ts _ ih
            intro mm hmm hcc
            exact absurd hcc (generateBracket_not_completed t.teams shuffled now mm hmm)
          · rw [if_pos h2]
            exact ih
        · rw [if_pos h1]
          exact ih
    | report ts tid mid h a now hr ih =>
      rcases reportMatchResult_snd_cases ts tid mid h a now with heq |
        ⟨t, m, hget, hfind, hh, ha2, heq⟩
      · rw [heq]
        exact ih
      · rw [heq]
        have hget2 : ts.find? (fun u => u.id == tid) = some t := hget
        exact strongInv_applyMatchResult ts t m mid h a now ih
          (List.mem_of_find?_eq_some hget2) hh ha2
    | progress ts tid now hr ih =>
      unfold runProgressCheck
      cases hget : getTournament ts tid with
      | none => exact ih
      | some t =>
        dsimp only
        have hget2 : ts.find? (fun u => u.id == tid) = some t := hget
        have htmem := List.mem_of_find?_eq_some hget2
        apply strongInv_setTournament ts _ ih
        intro mm hmm
        have hfield := (check_snd_fields t now).1
        exact ih t htmem mm (hfield ▸ hmm)
  intro t ht m hm hc
  obtain ⟨h1, h2, h3, h4, h5, h6⟩ := hstrong t ht m hm hc
  exact ⟨strFalsy_false_ne_none _ h1, strFalsy_false_ne_none _ h2, h3, h4, h5, h6⟩

/-- Witness for C8 on a registry reached by one create step. -/
theorem reachable_completedInv_witness :
    completedInv (createTournament [] ⟨"Cup", 4, "g1"⟩ "t9" 0).2 :=
  reachable_completedInv _ (Reachable.create [] ⟨"Cup", 4, "g1"⟩ "t9" 0 Reachable.init)

end ValorantBot
